import Mathlib

/-!
Verification of the primitive-construction layer of the ngraph CPU backend
(`src/ngraph/runtime/cpu/mkldnn_emitter.cpp`) and of the GPU device-memory
utilities (`src/ngraph/runtime/gpu/gpu_util.cpp`).

The C++ sources are shallowly embedded: `uint64_t` arithmetic becomes `Nat`
arithmetic with explicit `% 2 ^ 64` wherever the C computation can wrap;
the emitter's member state (`m_mkldnn_primitives`, `m_primitive_deps`,
`m_workspaces`) becomes an explicit `Emitter` record threaded through each
member function; `throw`ing paths return `Except`/`Option`.
-/

set_option maxRecDepth 4096
set_option linter.unusedVariables false

/-! ## GPU utilities: `gpu_util.cpp` -/

/-- The modulus of C `uint64_t` arithmetic. -/
def U64 : Nat := 2 ^ 64

/-- `uint64_t` subtraction `a - b` (two's-complement wraparound) for operand
values below `2 ^ 64`. -/
def usub (a b : Nat) : Nat := (a + U64 - b) % U64

/-- Loop body of `_powU64`: C's
`do { if (exp & 1) result *= base; exp >>= 1; if (!exp) break; base *= base; } while (true)`
with every multiplication reduced mod `2 ^ 64`.  The C local `result`
after the conditional multiply, `if exp % 2 = 1 then acc * base % U64
else acc`, is written inline in both branches; the recursion is driven by
a structural step counter (`exp` is a `uint64_t`, so 64 halvings always
reach the `exp / 2 = 0` exit first and the counter never runs out). -/
def powU64Aux (base exp acc : Nat) : Nat → Nat
  | 0 => acc
  | fuel + 1 =>
    if exp / 2 = 0 then (if exp % 2 = 1 then acc * base % U64 else acc)
    else powU64Aux (base * base % U64) (exp / 2)
      (if exp % 2 = 1 then acc * base % U64 else acc) fuel

/-- `_powU64(base, exp)` from `gpu_util.cpp` (`exp` below `2 ^ 64`). -/
def powU64 (base exp : Nat) : Nat := powU64Aux base exp 1 64

/-- The De Bruijn multiply table of `_msbDeBruijnU32`. -/
def deBruijnTable : List Nat :=
  [0, 9, 1, 10, 13, 21, 2, 29, 11, 14, 16, 18, 22, 25, 3, 30,
   8, 12, 20, 28, 15, 17, 24, 7, 19, 27, 23, 6, 26, 5, 4, 31]

/-- `_msbDeBruijnU32(v)` from `gpu_util.cpp`; `v` is a `uint32_t` value. -/
def msbDeBruijnU32 (v : Nat) : Nat :=
  let v1 := v ||| (v >>> 1)
  let v2 := v1 ||| (v1 >>> 2)
  let v3 := v2 ||| (v2 >>> 4)
  let v4 := v3 ||| (v3 >>> 8)
  let v5 := v4 ||| (v4 >>> 16)
  deBruijnTable.getD ((v5 * 0x07C4ACDD % 2 ^ 32) >>> 27) 0

/-- `_msbU64(val)` from `gpu_util.cpp`. -/
def msbU64 (val : Nat) : Nat :=
  if val > 0xFFFFFFFF then 32 + msbDeBruijnU32 (val >>> 32 % 2 ^ 32)
  else msbDeBruijnU32 (val % 2 ^ 32)

/-- The `for (p = 0; p < 2 * nbits + 1; p++)` search loop of `_magicU32`,
recursing structurally on the remaining iteration count `fuel = bound - p`
(so `p < bound` is exactly `fuel > 0`).  The C local `pow2 = _powU64(2, p)`
is written inline; a `none` result is the
`throw std::runtime_error(...)` fall-through. -/
def magicU32Loop (nc d : Nat) : Nat → Nat → Option (Nat × Nat)
  | 0, _ => none
  | fuel + 1, p =>
    if nc * (usub (usub d 1) (usub (powU64 2 p) 1 % d)) % U64 < powU64 2 p then
      some (usub (usub ((powU64 2 p + d) % U64) 1) (usub (powU64 2 p) 1 % d) / d, p)
    else magicU32Loop nc d fuel (p + 1)

/-- `_magicU32(nmax, d)` from `gpu_util.cpp`.  `nc = ((nmax + 1) / d) * d - 1`
is computed in wrapping `uint64_t` arithmetic (it underflows when
`d > nmax + 1`). -/
def magicU32 (nmax d : Nat) : Option (Nat × Nat) :=
  let nc := usub ((nmax + 1) % U64 / d * d % U64) 1
  let nbits := msbU64 nmax + 1
  magicU32Loop nc d (2 * nbits + 1) 0

/-- `_magicU64(d)` from `gpu_util.cpp`: `nmax` is `0xffffffff` for the
special case `d == 3` and `0x7fffffff` otherwise, and `shift -= 32`
(wrapping) is applied when `magic != 1`.  The `_magicU32` call may throw
(`none`), which propagates, hence `Option.map`. -/
def magicU64 (d : Nat) : Option (Nat × Nat) :=
  (magicU32 (if d = 3 then 0xffffffff else 0x7fffffff) d).map
    (fun ms => (ms.1, if ms.1 ≠ 1 then usub ms.2 32 else ms.2))

/-- `runtime::gpu::get_magic_u64(divisor)`. -/
def get_magic_u64 (divisor : Nat) : Option (Nat × Nat) := magicU64 divisor

/-- Outcome of one `cudaMalloc` call: `success ptr` sets the output pointer,
`failure` returns an error code and leaves the output pointer unset.  This
abstracts the CUDA runtime, which is outside the repository. -/
inductive CudaMallocResult where
  | success (ptr : Nat)
  | failure
  deriving DecidableEq

/-- `runtime::gpu::create_gpu_buffer(buffer_size)`: the `cudaMalloc` status is
ignored and the (possibly unset, modelled as `none`) pointer is returned
unconditionally; there is no error path. -/
def create_gpu_buffer (cudaMalloc : Nat → CudaMallocResult) (buffer_size : Nat) :
    Option Nat :=
  match cudaMalloc buffer_size with
  | .success p => some p
  | .failure => none

/-! ## CPU emitter: `mkldnn_emitter.cpp`

The emitter's member state is threaded explicitly.  The member declarations
live in `mkldnn_emitter.hpp`, which is not part of the excerpt; the types
used below follow the spec's data model ("append-only, index-addressed
collection of opaque compute primitive handles"; "mapping from primitive
index → ordered sequence of buffer-slot indices") and the operations the
`.cpp` file performs on them (`emplace_back`/`size`/`operator[]` — a vector;
`at`/`operator[]`/`push_back` on the value — an ordered map to vectors,
matching `std::map<size_t, std::vector<size_t>>`). -/

/-- A concrete mkldnn memory format tag.  `blocked` is
`mkldnn::memory::format::blocked`; every other tag is abstracted as a
number. -/
inductive MemFormat where
  | blocked
  | tag (n : Nat)
  deriving DecidableEq

/-- An `mkldnn::memory::desc`: dimensions, data type (abstracted as a
numeric code, the image of `mkldnn_utils::get_mkldnn_data_type`), format
tag, and — for descriptors made by `build_blocked_memory_descriptor` — the
explicit strides. -/
structure MemDesc where
  dims : List Nat
  dataType : Nat
  format : MemFormat
  strides : List Nat := []
  deriving DecidableEq

/-- The shape/element-type view of a `TensorViewWrapper`. -/
structure TensorViewWrapper where
  shape : List Nat
  elementType : Nat
  deriving DecidableEq

/-- The rounding mode set by `set_int_output_round_mode`. -/
inductive RoundMode where
  | nearest
  | down
  deriving DecidableEq

/-- An `mkldnn::primitive_attr`: the fields the emitter sets.
`outputScales` records the `set_output_scales(mask, scales)` call (mask and
scale vector); `roundMode` records `set_int_output_round_mode`; `postOps`
records `set_post_ops` (post-ops are opaque, abstracted as a token). -/
structure PrimAttr where
  outputScales : Option (Nat × List Float) := none
  roundMode : Option RoundMode := none
  postOps : Nat := 0

/-- What kind of vendor primitive object a registry slot holds (the
dynamic type behind the `mkldnn::primitive*`), with the attributes that
went into its construction where a claim depends on them. -/
inductive Payload where
  | memory (desc : MemDesc)
  | reorder (attr : PrimAttr)
  | convForward (attr : PrimAttr)
  | poolForward
  | poolBackward
  | rnnForward

/-- A heap object created by `new`: a fresh identity plus its payload.
Object identities let teardown claims distinguish "released" from
"leaked". -/
structure Obj where
  id : Nat
  payload : Payload

/-- Errors that can escape an emitter member function:
`ngraphError` is a thrown `ngraph_error`, `mkldnnError` is an uncaught
`mkldnn::error` from the vendor library, `outOfRange` is the
`std::out_of_range` thrown by `std::map::at`. -/
inductive EmitterError where
  | ngraphError (msg : String)
  | mkldnnError
  | outOfRange
  deriving DecidableEq

/-- `true` exactly for a thrown `ngraph_error`. -/
def EmitterError.isNgraphError : EmitterError → Bool
  | .ngraphError _ => true
  | _ => false

/-- Lookup in the dependency map (`m_primitive_deps.find`-like read). -/
def depsFind (m : List (Nat × List Nat)) (k : Nat) : Option (List Nat) :=
  match m with
  | [] => none
  | (k', v') :: rest => if k' = k then some v' else depsFind rest k

/-- `m_primitive_deps[k] = v`: replace the binding for `k`, or create it. -/
def depsStore (m : List (Nat × List Nat)) (k : Nat) (v : List Nat) :
    List (Nat × List Nat) :=
  match m with
  | [] => [(k, v)]
  | (k', v') :: rest => if k' = k then (k, v) :: rest else (k', v') :: depsStore rest k v

/-- `m_primitive_deps[k]` as read by `operator[]` on a present key (absent
keys default to the empty vector). -/
def depsGetD (m : List (Nat × List Nat)) (k : Nat) : List Nat :=
  (depsFind m k).getD []

/-- `m_primitive_deps[k][pos] = v`: element assignment inside a binding. -/
def depsSetAt (m : List (Nat × List Nat)) (k pos v : Nat) : List (Nat × List Nat) :=
  depsStore m k ((depsGetD m k).set pos v)

/-- The `MKLDNNEmitter` member state:
`primitives` is `m_mkldnn_primitives` (slots are `none` for the `nullptr`
entries made by `resize`), `deps` is `m_primitive_deps`, `workspaces`
counts `m_workspaces` (only workspace indices are observable in claims),
and `nextObj` is the allocator counter handing out fresh object
identities. -/
structure Emitter where
  primitives : List (Option Obj)
  deps : List (Nat × List Nat)
  workspaces : Nat
  nextObj : Nat

/-- The emitter at program start (default-constructed members). -/
def Emitter.empty : Emitter := ⟨[], [], 0, 0⟩

/-- `MKLDNNEmitter::insert_primitive(new ...)`: append and return
`size() - 1`.  The `new` is modelled by consuming a fresh object id. -/
def insert_primitive (st : Emitter) (p : Payload) : Emitter × Nat :=
  ({ st with
      primitives := st.primitives ++ [some ⟨st.nextObj, p⟩],
      nextObj := st.nextObj + 1 },
   st.primitives.length)

/-- `MKLDNNEmitter::insert_workspace`: push the buffer and return
`m_workspaces.size() - 1`. -/
def insert_workspace (st : Emitter) : Emitter × Nat :=
  ({ st with workspaces := st.workspaces + 1 }, st.workspaces)

/-- `MKLDNNEmitter::get_primitive_deps(index)`: `m_primitive_deps.at(index)`
throws `std::out_of_range` on an unrecorded index. -/
def get_primitive_deps (st : Emitter) (index : Nat) : Except EmitterError (List Nat) :=
  match depsFind st.deps index with
  | some v => .ok v
  | none => .error .outOfRange

/-- `build_memory_descriptor(const TensorViewWrapper&, format)`. -/
def build_memory_descriptor_tvw (tvw : TensorViewWrapper) (fmt : MemFormat) :
    Except EmitterError MemDesc :=
  if fmt = .blocked then .error (.ngraphError "Cannot created blocked descriptor.")
  else .ok { dims := tvw.shape, dataType := tvw.elementType, format := fmt }

/-- `build_memory_descriptor(const Shape&, const element::Type&, format)`. -/
def build_memory_descriptor_shape (shape : List Nat) (et : Nat) (fmt : MemFormat) :
    Except EmitterError MemDesc :=
  if fmt = .blocked then .error (.ngraphError "Cannot created blocked descriptor")
  else .ok { dims := shape, dataType := et, format := fmt }

/-- `build_blocked_memory_descriptor(dim, strides, dtype)`: fills an
`mkldnn_memory_desc_t` with format `mkldnn_blocked` and the given strides,
without any error path. -/
def build_blocked_memory_descriptor (dim strides : List Nat) (dtype : Nat) : MemDesc :=
  { dims := dim, dataType := dtype, format := .blocked, strides := strides }

/-- Index-returning `build_memory_primitive(desc)`: insert a fresh
`mkldnn::memory`. -/
def build_memory_primitive (st : Emitter) (desc : MemDesc) : Emitter × Nat :=
  insert_primitive st (.memory desc)

/-- In-place `build_memory_primitive(desc, index)`:
`m_mkldnn_primitives[index] = new mkldnn::memory(...)` — the old pointer is
overwritten without `delete`. -/
def build_memory_primitive_inplace (st : Emitter) (desc : MemDesc) (index : Nat) :
    Emitter :=
  { st with
      primitives := st.primitives.set index (some ⟨st.nextObj, .memory desc⟩),
      nextObj := st.nextObj + 1 }

/-- The vendor (mkldnn) side of a construction call, abstracted: whether the
library accepts the parameter combination of the call under consideration
(`convOk`/`poolOk`/`rnnOk`, with `convMsg` the `e.message` text of a
rejection), and the workspace memory descriptors its `primitive_desc`
queries report. -/
structure Vendor where
  convOk : Bool := true
  convMsg : String := ""
  poolOk : Bool := true
  rnnOk : Bool := true
  rnnWorkspaceDesc : MemDesc := ⟨[], 0, .tag 0, []⟩
  maxpoolWorkspaceDesc : MemDesc := ⟨[], 0, .tag 0, []⟩

/-- Index-returning `build_quantize_reorder(input_desc, result_desc, scales)`:
two memory slots, then a reorder whose attr carries
`set_output_scales(0, scales)` and round-to-nearest; deps are
`{input_index, result_index}`. -/
def build_quantize_reorder (st : Emitter) (input_desc result_desc : MemDesc)
    (scales : List Float) : Emitter × Nat :=
  let (st1, input_index) := build_memory_primitive st input_desc
  let (st2, result_index) := build_memory_primitive st1 result_desc
  let attr : PrimAttr := { outputScales := some (0, scales), roundMode := some .nearest }
  let (st3, primitive_index) := insert_primitive st2 (.reorder attr)
  ({ st3 with deps := depsStore st3.deps primitive_index [input_index, result_index] },
   primitive_index)

/-- In-place `build_quantize_reorder(input_desc, result_desc, scales,
quantize_index, mask)`: rebuild the two memory slots named by the recorded
deps, then overwrite the primitive slot with a new reorder whose attr
carries `set_output_scales(mask, scales)` and round-to-nearest. -/
def build_quantize_reorder_inplace (st : Emitter) (input_desc result_desc : MemDesc)
    (scales : List Float) (quantize_index : Nat) (mask : Nat) : Emitter :=
  let input_index := (depsGetD st.deps quantize_index).getD 0 0
  let st1 := build_memory_primitive_inplace st input_desc input_index
  let result_index := (depsGetD st1.deps quantize_index).getD 1 0
  let st2 := build_memory_primitive_inplace st1 result_desc result_index
  let attr : PrimAttr := { outputScales := some (mask, scales), roundMode := some .nearest }
  { st2 with
      primitives := st2.primitives.set quantize_index (some ⟨st2.nextObj, .reorder attr⟩),
      nextObj := st2.nextObj + 1 }

/-- `build_convolution_forward` without bias: three memory slots, then the
convolution built inside `try { ... } catch (const mkldnn::error& e)
{ throw ngraph_error("Could not create mkldnn convolution " + e.message); }`;
deps are `{input_data_index, weights_index, result_index}`. -/
def build_convolution_forward (V : Vendor) (st : Emitter)
    (input_data_desc weights_desc result_desc : MemDesc)
    (strides dilation_strides : List Nat) (padding_below padding_above : List Int)
    (pops : Nat) : Except EmitterError (Emitter × Nat) :=
  let (st1, input_data_index) := build_memory_primitive st input_data_desc
  let (st2, weights_index) := build_memory_primitive st1 weights_desc
  let (st3, result_index) := build_memory_primitive st2 result_desc
  let conv_attr : PrimAttr := { postOps := pops }
  if V.convOk then
    let (st4, conv_index) := insert_primitive st3 (.convForward conv_attr)
    .ok ({ st4 with
            deps := depsStore st4.deps conv_index
              [input_data_index, weights_index, result_index] },
         conv_index)
  else .error (.ngraphError ("Could not create mkldnn convolution " ++ V.convMsg))

/-- `build_convolution_forward` with bias: four memory slots, then the
convolution built inside `try { ... } catch (const mkldnn::error& e)
{ throw ngraph_error("Could not create convolution " + e.message); }`;
deps are `{input_data_index, weights_index, bias_index, result_index}`. -/
def build_convolution_forward_bias (V : Vendor) (st : Emitter)
    (input_data_desc weights_desc bias_desc result_desc : MemDesc)
    (strides dilation_strides : List Nat) (padding_below padding_above : List Int)
    (pops : Nat) : Except EmitterError (Emitter × Nat) :=
  let (st1, input_data_index) := build_memory_primitive st input_data_desc
  let (st2, weights_index) := build_memory_primitive st1 weights_desc
  let (st3, bias_index) := build_memory_primitive st2 bias_desc
  let (st4, result_index) := build_memory_primitive st3 result_desc
  let conv_attr : PrimAttr := { postOps := pops }
  if V.convOk then
    let (st5, conv_index) := insert_primitive st4 (.convForward conv_attr)
    .ok ({ st5 with
            deps := depsStore st5.deps conv_index
              [input_data_index, weights_index, bias_index, result_index] },
         conv_index)
  else .error (.ngraphError ("Could not create convolution " ++ V.convMsg))

/-- `build_quantized_convolution_forward` without bias: attr carries
round-to-nearest and `set_output_scales(0, {scale})` (a single global
scale); deps are `{input, weights, result}`.  (No try/catch in the
source; modelled on the accepting path.) -/
def build_quantized_convolution_forward (st : Emitter)
    (input_data_desc weights_desc result_desc : MemDesc)
    (strides dilation_strides : List Nat) (padding_below padding_above : List Int)
    (scale : Float) (pops : Nat) : Emitter × Nat :=
  let (st1, input_data_index) := build_memory_primitive st input_data_desc
  let (st2, weights_index) := build_memory_primitive st1 weights_desc
  let (st3, result_index) := build_memory_primitive st2 result_desc
  let conv_attr : PrimAttr :=
    { outputScales := some (0, [scale]), roundMode := some .nearest, postOps := pops }
  let (st4, conv_index) := insert_primitive st3 (.convForward conv_attr)
  ({ st4 with
      deps := depsStore st4.deps conv_index
        [input_data_index, weights_index, result_index] },
   conv_index)

/-- `build_quantized_convolution_forward` with bias: same attr, deps
`{input, weights, bias, result}`. -/
def build_quantized_convolution_forward_bias (st : Emitter)
    (input_data_desc weights_desc bias_desc result_desc : MemDesc)
    (strides dilation_strides : List Nat) (padding_below padding_above : List Int)
    (scale : Float) (pops : Nat) : Emitter × Nat :=
  let (st1, input_data_index) := build_memory_primitive st input_data_desc
  let (st2, weights_index) := build_memory_primitive st1 weights_desc
  let (st3, bias_index) := build_memory_primitive st2 bias_desc
  let (st4, result_index) := build_memory_primitive st3 result_desc
  let conv_attr : PrimAttr :=
    { outputScales := some (0, [scale]), roundMode := some .nearest, postOps := pops }
  let (st5, conv_index) := insert_primitive st4 (.convForward conv_attr)
  ({ st5 with
      deps := depsStore st5.deps conv_index
        [input_data_index, weights_index, bias_index, result_index] },
   conv_index)

/-- `build_pooling_forward(algorithm, input_desc, result_desc, ...)`: two
memory slots then the pooling primitive, with NO try/catch — a vendor
rejection escapes as an `mkldnn::error`. -/
def build_pooling_forward (V : Vendor) (st : Emitter)
    (input_desc result_desc : MemDesc)
    (window_strides window_shape padding_below padding_above : List Nat) :
    Except EmitterError (Emitter × Nat) :=
  let (st1, input_index) := build_memory_primitive st input_desc
  let (st2, result_index) := build_memory_primitive st1 result_desc
  if V.poolOk then
    let (st3, primitive_index) := insert_primitive st2 .poolForward
    .ok ({ st3 with deps := depsStore st3.deps primitive_index [input_index, result_index] },
         primitive_index)
  else .error .mkldnnError

/-- Index-returning `build_rnn_forward(...)`: seven memory slots, the
vendor `rnn_forward::primitive_desc` (NO try/catch — a rejection escapes
as an `mkldnn::error`), a workspace memory slot, a workspace buffer, the
rnn primitive; deps are the seven i/o slots then
`{workspace_index, workspace_buf_index}`. -/
def build_rnn_forward (V : Vendor) (st : Emitter)
    (src_layer_desc src_iter_desc weights_layer_desc weights_iter_desc bias_desc
     dst_layer_desc dst_iter_desc : MemDesc) (rnn_direction rnn_algorithm : Nat) :
    Except EmitterError (Emitter × Nat) :=
  let (st1, src_layer_index) := build_memory_primitive st src_layer_desc
  let (st2, src_iter_index) := build_memory_primitive st1 src_iter_desc
  let (st3, weights_layer_index) := build_memory_primitive st2 weights_layer_desc
  let (st4, weights_iter_index) := build_memory_primitive st3 weights_iter_desc
  let (st5, bias_index) := build_memory_primitive st4 bias_desc
  let (st6, dst_layer_index) := build_memory_primitive st5 dst_layer_desc
  let (st7, dst_iter_index) := build_memory_primitive st6 dst_iter_desc
  if V.rnnOk then
    let (st8, workspace_index) := build_memory_primitive st7 V.rnnWorkspaceDesc
    let (st9, workspace_buf_index) := insert_workspace st8
    let (st10, rnn_index) := insert_primitive st9 .rnnForward
    .ok ({ st10 with
            deps := depsStore st10.deps rnn_index
              [src_layer_index, src_iter_index, weights_layer_index, weights_iter_index,
               bias_index, dst_layer_index, dst_iter_index, workspace_index,
               workspace_buf_index] },
         rnn_index)
  else .error .mkldnnError

/-- In-place `build_rnn_forward(rnn_desc, rnn_index)`: rebuild the seven
recorded i/o slots and the workspace slot in place, insert a NEW workspace
buffer and store its index into deps position 8, then overwrite the
primitive slot. -/
def build_rnn_forward_inplace (V : Vendor) (st : Emitter)
    (src_layer_desc src_iter_desc weights_layer_desc weights_iter_desc bias_desc
     dst_layer_desc dst_iter_desc : MemDesc) (rnn_index : Nat) :
    Except EmitterError Emitter :=
  let st1 := build_memory_primitive_inplace st src_layer_desc
    ((depsGetD st.deps rnn_index).getD 0 0)
  let st2 := build_memory_primitive_inplace st1 src_iter_desc
    ((depsGetD st1.deps rnn_index).getD 1 0)
  let st3 := build_memory_primitive_inplace st2 weights_layer_desc
    ((depsGetD st2.deps rnn_index).getD 2 0)
  let st4 := build_memory_primitive_inplace st3 weights_iter_desc
    ((depsGetD st3.deps rnn_index).getD 3 0)
  let st5 := build_memory_primitive_inplace st4 bias_desc
    ((depsGetD st4.deps rnn_index).getD 4 0)
  let st6 := build_memory_primitive_inplace st5 dst_layer_desc
    ((depsGetD st5.deps rnn_index).getD 5 0)
  let st7 := build_memory_primitive_inplace st6 dst_iter_desc
    ((depsGetD st6.deps rnn_index).getD 6 0)
  if V.rnnOk then
    let st8 := build_memory_primitive_inplace st7 V.rnnWorkspaceDesc
      ((depsGetD st7.deps rnn_index).getD 7 0)
    let (st9, workspace_buf_index) := insert_workspace st8
    let st10 := { st9 with deps := depsSetAt st9.deps rnn_index 8 workspace_buf_index }
    .ok { st10 with
            primitives := st10.primitives.set rnn_index (some ⟨st10.nextObj, .rnnForward⟩),
            nextObj := st10.nextObj + 1 }
  else .error .mkldnnError

/-- Index-returning `build_max_pooling_backward(...)`: slots for
`fprop_src`, `diff_dst`, `diff_src`, the forward workspace memory, a
workspace buffer, then the forward and backward pooling primitives;
deps are `fwd ↦ {fprop_src, diff_src, ws, ws_buf}` and
`bwd ↦ {diff_dst, ws, diff_src, ws_buf}`; returns the backward index
(the forward primitive sits at the preceding index). -/
def build_max_pooling_backward (V : Vendor) (st : Emitter)
    (fprop_src_desc diff_dst_desc diff_src_desc : MemDesc)
    (window_strides window_shape padding_below padding_above : List Nat) :
    Emitter × Nat :=
  let (st1, fprop_src_index) := build_memory_primitive st fprop_src_desc
  let (st2, diff_dst_index) := build_memory_primitive st1 diff_dst_desc
  let (st3, diff_src_index) := build_memory_primitive st2 diff_src_desc
  let (st4, ws_index) := build_memory_primitive st3 V.maxpoolWorkspaceDesc
  let (st5, ws_buf_index) := insert_workspace st4
  let (st6, fwd_primitive_index) := insert_primitive st5 .poolForward
  let (st7, bwd_primitive_index) := insert_primitive st6 .poolBackward
  let deps1 := depsStore st7.deps fwd_primitive_index
    [fprop_src_index, diff_src_index, ws_index, ws_buf_index]
  let deps2 := depsStore deps1 bwd_primitive_index
    [diff_dst_index, ws_index, diff_src_index, ws_buf_index]
  ({ st7 with deps := deps2 }, bwd_primitive_index)

/-- In-place `build_max_pooling_backward(bwd_pool_desc, fwd_pool_desc,
fprop_src_desc, fwd_pool_index, bwd_pool_index)`.  Note the source reads
the workspace slot from `m_primitive_deps[fwd_pool_index][1]` (the
diff-src slot), rebuilds the workspace memory over it, and stores it into
the backward deps at position 1; it also inserts a NEW workspace buffer
and stores its index at position 3 of both dep lists. -/
def build_max_pooling_backward_inplace (V : Vendor) (st : Emitter)
    (diff_dst_desc diff_src_desc fprop_src_desc : MemDesc)
    (fwd_pool_index bwd_pool_index : Nat) : Emitter :=
  let fprop_src_index := (depsGetD st.deps fwd_pool_index).getD 0 0
  let st1 := build_memory_primitive_inplace st fprop_src_desc fprop_src_index
  let diff_dst_index := (depsGetD st1.deps bwd_pool_index).getD 0 0
  let st2 := build_memory_primitive_inplace st1 diff_dst_desc diff_dst_index
  let diff_src_index := (depsGetD st2.deps fwd_pool_index).getD 1 0
  let st3 := build_memory_primitive_inplace st2 diff_src_desc diff_src_index
  let st4 := { st3 with deps := depsSetAt st3.deps bwd_pool_index 2 diff_src_index }
  let ws_index := (depsGetD st4.deps fwd_pool_index).getD 1 0
  let st5 := build_memory_primitive_inplace st4 V.maxpoolWorkspaceDesc ws_index
  let st6 := { st5 with deps := depsSetAt st5.deps bwd_pool_index 1 ws_index }
  let (st7, ws_buf_index) := insert_workspace st6
  let st8 := { st7 with deps := depsSetAt st7.deps fwd_pool_index 3 ws_buf_index }
  let st9 := { st8 with deps := depsSetAt st8.deps bwd_pool_index 3 ws_buf_index }
  let st10 := { st9 with
      primitives := st9.primitives.set fwd_pool_index (some ⟨st9.nextObj, .poolForward⟩),
      nextObj := st9.nextObj + 1 }
  { st10 with
      primitives := st10.primitives.set bwd_pool_index (some ⟨st10.nextObj, .poolBackward⟩),
      nextObj := st10.nextObj + 1 }

/-- `convolution_forward_init(with_bias)`: resize the registry by 5 (with
bias) or 4 slots of `nullptr` and pre-record the dependency entry of the
final (convolution) slot in the fixed order. -/
def convolution_forward_init (st : Emitter) (with_bias : Bool) : Emitter × Nat :=
  let size := st.primitives.length
  if with_bias then
    ({ st with
        primitives := st.primitives ++ List.replicate 5 none,
        deps := depsStore st.deps (size + 4) [size, size + 1, size + 2, size + 3] },
     size + 4)
  else
    ({ st with
        primitives := st.primitives ++ List.replicate 4 none,
        deps := depsStore st.deps (size + 3) [size, size + 1, size + 2] },
     size + 3)

/-- `reserve_primitive_space(count, new_workspace)`: resize the registry by
`count` slots of `nullptr`, push the slot indices `size .. size+count-2`
onto the dependency entry of the final slot, then push a `0` placeholder
when a workspace is requested.  (`count >= 1`; the source loop is
ill-defined for `count == 0`.) -/
def reserve_primitive_space (st : Emitter) (count : Nat) (new_workspace : Bool) :
    Emitter × Nat :=
  let size := st.primitives.length
  let last := size + count - 1
  let entries := (List.range (count - 1)).map (size + ·)
  let deps1 := depsStore st.deps last (depsGetD st.deps last ++ entries)
  let deps2 := if new_workspace then depsStore deps1 last (depsGetD deps1 last ++ [0])
    else deps1
  ({ st with primitives := st.primitives ++ List.replicate count none, deps := deps2 },
   last)

/-- A teardown event: `delete`-ing the object with a given identity, or the
final `mkldnn_utils::mkl_serv_free_buffers()` cache flush. -/
inductive TEvent where
  | free (id : Nat)
  | flush
  deriving DecidableEq

/-- `MKLDNNEmitter::~MKLDNNEmitter()`: `delete p` for each registry entry in
order (`delete nullptr` is a no-op), then the mkl buffer-cache flush. -/
def teardown (st : Emitter) : List TEvent :=
  (st.primitives.filterMap (fun o => o.map (fun obj => TEvent.free obj.id))) ++ [TEvent.flush]

/-- The object identities currently stored in the registry, in slot order. -/
def registryIds (st : Emitter) : List Nat :=
  st.primitives.filterMap (fun o => o.map Obj.id)

/-! ## Helper lemmas about the dependency map and list access -/

theorem depsFind_store_self (m : List (Nat × List Nat)) (k : Nat) (v : List Nat) :
    depsFind (depsStore m k v) k = some v := by
  induction m with
  | nil => simp [depsStore, depsFind]
  | cons h t ih =>
    obtain ⟨k', v'⟩ := h
    by_cases hk : k' = k <;> simp [depsStore, depsFind, hk, ih]

theorem depsFind_store_ne (m : List (Nat × List Nat)) {k j : Nat} (v : List Nat)
    (h : j ≠ k) : depsFind (depsStore m k v) j = depsFind m j := by
  induction m with
  | nil => simp [depsStore, depsFind, Ne.symm h]
  | cons hd t ih =>
    obtain ⟨k', v'⟩ := hd
    by_cases hk : k' = k
    · subst hk
      simp [depsStore, depsFind, Ne.symm h]
    · simp [depsStore, depsFind, hk, ih]

theorem depsGetD_store_self (m : List (Nat × List Nat)) (k : Nat) (v : List Nat) :
    depsGetD (depsStore m k v) k = v := by
  simp [depsGetD, depsFind_store_self]

theorem depsGetD_store_ne (m : List (Nat × List Nat)) {k j : Nat} (v : List Nat)
    (h : j ≠ k) : depsGetD (depsStore m k v) j = depsGetD m j := by
  simp [depsGetD, depsFind_store_ne m v h]

theorem getD_snoc {α : Type} (l : List α) (x d : α) : (l ++ [x]).getD l.length d = x := by
  induction l with
  | nil => rfl
  | cons a t ih => simpa using ih

theorem getD_snoc_lt {α : Type} (l : List α) (x d : α) (i : Nat) (h : i < l.length) :
    (l ++ [x]).getD i d = l.getD i d := by
  induction l generalizing i with
  | nil => simp at h
  | cons a t ih =>
    cases i with
    | zero => rfl
    | succ j => simpa using ih j (by simpa using h)

theorem getD_set_self {α : Type} (l : List α) (i : Nat) (x d : α) (h : i < l.length) :
    (l.set i x).getD i d = x := by
  induction l generalizing i with
  | nil => simp at h
  | cons a t ih =>
    cases i with
    | zero => rfl
    | succ j => simpa using ih j (by simpa using h)

theorem getD_set_ne {α : Type} (l : List α) {i j : Nat} (x d : α) (h : j ≠ i) :
    (l.set i x).getD j d = l.getD j d := by
  induction l generalizing i j with
  | nil => rfl
  | cons a t ih =>
    cases i with
    | zero => cases j with
      | zero => exact absurd rfl h
      | succ j' => rfl
    | succ i' => cases j with
      | zero => rfl
      | succ j' => simpa using ih (fun hh => h (by omega))

theorem getD_append_right' {α : Type} (l l' : List α) (i : Nat) (d : α)
    (h : l.length ≤ i) : (l ++ l').getD i d = l'.getD (i - l.length) d := by
  induction l generalizing i with
  | nil => simp
  | cons a t ih =>
    cases i with
    | zero => simp at h
    | succ j => simpa [Nat.succ_sub_succ] using ih j (by simpa using h)

theorem getD_len {α : Type} (P tail : List α) (d : α) :
    (P ++ tail).getD P.length d = tail.getD 0 d := by
  rw [getD_append_right' _ _ _ _ (Nat.le_refl _)]
  simp

theorem getD_len_add {α : Type} (P tail : List α) (k : Nat) (d : α) :
    (P ++ tail).getD (P.length + k) d = tail.getD k d := by
  rw [getD_append_right' _ _ _ _ (Nat.le_add_right _ _)]
  simp

/-- The `primitive_attr` baked into the primitive stored at registry slot
`i`, when that primitive carries one (reorders and convolutions). -/
def primAttr? (st : Emitter) (i : Nat) : Option PrimAttr :=
  match st.primitives.getD i none with
  | some ⟨_, .reorder a⟩ => some a
  | some ⟨_, .convForward a⟩ => some a
  | _ => none

/-! ## C3: the "blocked" layout tag is always rejected -/

/-- C3: `build_memory_descriptor` (both overloads) throws `ngraph_error`
whenever the requested format tag is `blocked`, and for any other tag it
returns a descriptor carrying exactly the requested tag (no silent
substitution). -/
theorem blocked_layout_rejected (tvw : TensorViewWrapper) (shape : List Nat) (et : Nat)
    (fmt : MemFormat) :
    build_memory_descriptor_tvw tvw .blocked =
      .error (.ngraphError "Cannot created blocked descriptor.") ∧
    build_memory_descriptor_shape shape et .blocked =
      .error (.ngraphError "Cannot created blocked descriptor") ∧
    (fmt ≠ .blocked →
      build_memory_descriptor_tvw tvw fmt =
        .ok { dims := tvw.shape, dataType := tvw.elementType, format := fmt } ∧
      build_memory_descriptor_shape shape et fmt =
        .ok { dims := shape, dataType := et, format := fmt }) := by
  refine ⟨rfl, rfl, fun h => ?_⟩
  simp [build_memory_descriptor_tvw, build_memory_descriptor_shape, h]

/-- C3 witness: the non-blocked branch at a concrete format tag. -/
theorem blocked_layout_rejected_witness :
    build_memory_descriptor_tvw ⟨[2, 3], 1⟩ (MemFormat.tag 0) =
      .ok { dims := [2, 3], dataType := 1, format := MemFormat.tag 0 } ∧
    build_memory_descriptor_shape [2, 3] 1 (MemFormat.tag 0) =
      .ok { dims := [2, 3], dataType := 1, format := MemFormat.tag 0 } :=
  (blocked_layout_rejected ⟨[2, 3], 1⟩ [2, 3] 1 (.tag 0)).2.2 (by decide)

/-! ## C8: `create_gpu_buffer` on an out-of-memory device -/

/-- A CUDA runtime whose device is out of memory: every `cudaMalloc`
fails. -/
def cudaOutOfMemory : Nat → CudaMallocResult := fun _ => .failure

/-- C8: evaluated at the failing input, `create_gpu_buffer` returns the
unset pointer (`none`) as if it were a successful result — its return type
has no error channel at all, so no allocation error can be reported. -/
theorem create_gpu_buffer_ignores_failure :
    create_gpu_buffer cudaOutOfMemory 1024 = none := rfl

/-! ## C9: `get_primitive_deps` on recorded and unrecorded indices -/

/-- C9: `get_primitive_deps` throws `std::out_of_range` for any index with
no recorded dependency entry (in particular every index on a fresh
emitter), and returns exactly the stored slot sequence for a recorded
index (illustrated by the entry a quantize-reorder construction just
stored). -/
theorem get_primitive_deps_spec (st : Emitter) (i : Nat)
    (input_desc result_desc : MemDesc) (scales : List Float) :
    (depsFind st.deps i = none → get_primitive_deps st i = .error .outOfRange) ∧
    (∀ v, depsFind st.deps i = some v → get_primitive_deps st i = .ok v) ∧
    (get_primitive_deps Emitter.empty i = .error .outOfRange) ∧
    (get_primitive_deps (build_quantize_reorder st input_desc result_desc scales).1
       (build_quantize_reorder st input_desc result_desc scales).2 =
      .ok [st.primitives.length, st.primitives.length + 1]) := by
  refine ⟨fun h => ?_, fun v h => ?_, ?_, ?_⟩
  · simp [get_primitive_deps, h]
  · simp [get_primitive_deps, h]
  · rfl
  · simp [build_quantize_reorder, build_memory_primitive, insert_primitive,
      get_primitive_deps, depsFind_store_self]

/-- C9 witness: concrete instances of all four parts. -/
theorem get_primitive_deps_spec_witness :
    (get_primitive_deps Emitter.empty 7 = .error .outOfRange) ∧
    (get_primitive_deps
       (build_quantize_reorder Emitter.empty ⟨[2], 0, .tag 1, []⟩ ⟨[2], 0, .tag 1, []⟩ []).1
       (build_quantize_reorder Emitter.empty ⟨[2], 0, .tag 1, []⟩ ⟨[2], 0, .tag 1, []⟩ []).2 =
      .ok [0, 1]) :=
  ⟨(get_primitive_deps_spec Emitter.empty 7 ⟨[2], 0, .tag 1, []⟩ ⟨[2], 0, .tag 1, []⟩ []).1 rfl,
   (get_primitive_deps_spec Emitter.empty 7 ⟨[2], 0, .tag 1, []⟩ ⟨[2], 0, .tag 1, []⟩ []).2.2.2⟩

/-! ## C7: quantized constructions bake rounding mode, scales and mask -/

/-- C7: every quantized construct records round-to-nearest and
`set_output_scales` with an explicit mask in the primitive's attributes:
the quantize-reorder construct and both quantized convolutions use mask 0
(one global scale), and the quantize-reorder rebuild uses the caller's
mask. -/
theorem quantized_round_mode_and_scales (st : Emitter)
    (input_desc weights_desc bias_desc result_desc : MemDesc)
    (scales : List Float) (scale : Float) (qi mask : Nat)
    (s ds : List Nat) (pb pa : List Int) (pops : Nat)
    (hqi : qi < st.primitives.length) :
    (primAttr? (build_quantize_reorder st input_desc result_desc scales).1
       (build_quantize_reorder st input_desc result_desc scales).2 =
      some { outputScales := some (0, scales), roundMode := some .nearest }) ∧
    (primAttr? (build_quantize_reorder_inplace st input_desc result_desc scales qi mask) qi =
      some { outputScales := some (mask, scales), roundMode := some .nearest }) ∧
    (primAttr?
       (build_quantized_convolution_forward st input_desc weights_desc result_desc
          s ds pb pa scale pops).1
       (build_quantized_convolution_forward st input_desc weights_desc result_desc
          s ds pb pa scale pops).2 =
      some { outputScales := some (0, [scale]), roundMode := some .nearest, postOps := pops }) ∧
    (primAttr?
       (build_quantized_convolution_forward_bias st input_desc weights_desc bias_desc
          result_desc s ds pb pa scale pops).1
       (build_quantized_convolution_forward_bias st input_desc weights_desc bias_desc
          result_desc s ds pb pa scale pops).2 =
      some { outputScales := some (0, [scale]), roundMode := some .nearest, postOps := pops }) := by
  refine ⟨?_, ?_, ?_, ?_⟩
  · simp only [build_quantize_reorder, build_memory_primitive, insert_primitive, primAttr?]
    rw [getD_append_right' _ _ _ _ (by simp)]
    simp
  · simp only [build_quantize_reorder_inplace, build_memory_primitive_inplace, primAttr?]
    rw [getD_set_self]
    simpa using hqi
  · simp only [build_quantized_convolution_forward, build_memory_primitive,
      insert_primitive, primAttr?]
    rw [getD_append_right' _ _ _ _ (by simp)]
    simp
  · simp only [build_quantized_convolution_forward_bias, build_memory_primitive,
      insert_primitive, primAttr?]
    rw [getD_append_right' _ _ _ _ (by simp)]
    simp

/-- C7 witness: the rebuild branch at a concrete prior state and mask. -/
theorem quantized_round_mode_and_scales_witness :
    2 < (build_quantize_reorder Emitter.empty ⟨[2], 0, .tag 1, []⟩ ⟨[2], 0, .tag 1, []⟩
          []).1.primitives.length ∧
    primAttr?
      (build_quantize_reorder_inplace
        (build_quantize_reorder Emitter.empty ⟨[2], 0, .tag 1, []⟩ ⟨[2], 0, .tag 1, []⟩ []).1
        ⟨[2], 0, .tag 1, []⟩ ⟨[2], 0, .tag 1, []⟩ [] 2 3) 2 =
      some { outputScales := some (3, []), roundMode := some .nearest } :=
  ⟨by decide,
   (quantized_round_mode_and_scales
      (build_quantize_reorder Emitter.empty ⟨[2], 0, .tag 1, []⟩ ⟨[2], 0, .tag 1, []⟩ []).1
      ⟨[2], 0, .tag 1, []⟩ ⟨[2], 0, .tag 1, []⟩ ⟨[2], 0, .tag 1, []⟩ ⟨[2], 0, .tag 1, []⟩
      [] 0 2 3 [] [] [] [] 0 (by decide)).2.1⟩

/-! ## C4: convolution forward dependency order -/

/-- C4: a successful biased convolution forward records exactly the four
dependencies `{input, weights, bias, output}` in that order (slots
`n..n+3` appended in that order, holding the corresponding memory
primitives), an unbiased one exactly the three `{input, weights, output}`,
and `convolution_forward_init` reserves slots and the dependency entry in
the same kind-specific order. -/
theorem conv_forward_deps_order (V : Vendor) (st : Emitter)
    (in_d w_d b_d r_d : MemDesc) (s ds : List Nat) (pb pa : List Int) (pops : Nat)
    (st1 st2 : Emitter) (ci1 ci2 : Nat)
    (h1 : build_convolution_forward_bias V st in_d w_d b_d r_d s ds pb pa pops =
      .ok (st1, ci1))
    (h2 : build_convolution_forward V st in_d w_d r_d s ds pb pa pops = .ok (st2, ci2)) :
    (ci1 = st.primitives.length + 4 ∧
     depsGetD st1.deps ci1 =
       [st.primitives.length, st.primitives.length + 1, st.primitives.length + 2,
        st.primitives.length + 3] ∧
     (st1.primitives.getD st.primitives.length none).map Obj.payload =
       some (.memory in_d) ∧
     (st1.primitives.getD (st.primitives.length + 1) none).map Obj.payload =
       some (.memory w_d) ∧
     (st1.primitives.getD (st.primitives.length + 2) none).map Obj.payload =
       some (.memory b_d) ∧
     (st1.primitives.getD (st.primitives.length + 3) none).map Obj.payload =
       some (.memory r_d)) ∧
    (ci2 = st.primitives.length + 3 ∧
     depsGetD st2.deps ci2 =
       [st.primitives.length, st.primitives.length + 1, st.primitives.length + 2] ∧
     (st2.primitives.getD st.primitives.length none).map Obj.payload =
       some (.memory in_d) ∧
     (st2.primitives.getD (st.primitives.length + 1) none).map Obj.payload =
       some (.memory w_d) ∧
     (st2.primitives.getD (st.primitives.length + 2) none).map Obj.payload =
       some (.memory r_d)) ∧
    ((convolution_forward_init st true).2 = st.primitives.length + 4 ∧
     depsGetD (convolution_forward_init st true).1.deps (st.primitives.length + 4) =
       [st.primitives.length, st.primitives.length + 1, st.primitives.length + 2,
        st.primitives.length + 3] ∧
     (convolution_forward_init st true).1.primitives.length =
       st.primitives.length + 5) ∧
    ((convolution_forward_init st false).2 = st.primitives.length + 3 ∧
     depsGetD (convolution_forward_init st false).1.deps (st.primitives.length + 3) =
       [st.primitives.length, st.primitives.length + 1, st.primitives.length + 2] ∧
     (convolution_forward_init st false).1.primitives.length =
       st.primitives.length + 4) := by
  rcases hV : V.convOk with _ | _
  · rw [build_convolution_forward_bias] at h1
    simp [build_memory_primitive, insert_primitive, hV] at h1
  constructor
  · rw [build_convolution_forward_bias] at h1
    simp only [build_memory_primitive, insert_primitive, hV, if_true, Except.ok.injEq,
      Prod.mk.injEq] at h1
    obtain ⟨hst1, hci1⟩ := h1
    subst hst1
    subst hci1
    refine ⟨?_, ?_, ?_, ?_, ?_, ?_⟩
    · simp only [List.length_append, List.length_cons, List.length_nil]
    · rw [depsGetD_store_self]
      simp only [List.length_append, List.length_cons, List.length_nil, List.cons.injEq,
        and_true]
    all_goals
      simp only [List.append_assoc, List.singleton_append]
      first
        | (rw [getD_len]; simp)
        | (rw [getD_len_add]; simp)
  constructor
  · rw [build_convolution_forward] at h2
    simp only [build_memory_primitive, insert_primitive, hV, if_true, Except.ok.injEq,
      Prod.mk.injEq] at h2
    obtain ⟨hst2, hci2⟩ := h2
    subst hst2
    subst hci2
    refine ⟨?_, ?_, ?_, ?_, ?_⟩
    · simp only [List.length_append, List.length_cons, List.length_nil]
    · rw [depsGetD_store_self]
      simp only [List.length_append, List.length_cons, List.length_nil, List.cons.injEq,
        and_true]
    all_goals
      simp only [List.append_assoc, List.singleton_append]
      first
        | (rw [getD_len]; simp)
        | (rw [getD_len_add]; simp)
  constructor
  · refine ⟨rfl, ?_, by simp [convolution_forward_init]⟩
    simp [convolution_forward_init, depsGetD_store_self]
  · refine ⟨rfl, ?_, by simp [convolution_forward_init]⟩
    simp [convolution_forward_init, depsGetD_store_self]

/-- A concrete memory descriptor used by the witness instantiations. -/
def demoDesc : MemDesc := ⟨[2], 0, .tag 1, []⟩

/-- The emitter state after a biased convolution construct on a fresh
emitter (four memory slots, the convolution, its dependency entry). -/
def convBiasDemo : Emitter :=
  { primitives :=
      [some ⟨0, .memory demoDesc⟩, some ⟨1, .memory demoDesc⟩, some ⟨2, .memory demoDesc⟩,
       some ⟨3, .memory demoDesc⟩, some ⟨4, .convForward {}⟩],
    deps := [(4, [0, 1, 2, 3])], workspaces := 0, nextObj := 5 }

/-- The emitter state after an unbiased convolution construct on a fresh
emitter. -/
def convDemo : Emitter :=
  { primitives :=
      [some ⟨0, .memory demoDesc⟩, some ⟨1, .memory demoDesc⟩, some ⟨2, .memory demoDesc⟩,
       some ⟨3, .convForward {}⟩],
    deps := [(3, [0, 1, 2])], workspaces := 0, nextObj := 4 }

/-- C4 witness: a biased convolution on a fresh emitter records the
dependency entry `[0, 1, 2, 3]` at index 4. -/
theorem conv_forward_deps_order_witness :
    depsGetD convBiasDemo.deps 4 = [0, 1, 2, 3] :=
  (conv_forward_deps_order {} Emitter.empty demoDesc demoDesc demoDesc demoDesc
    [] [] [] [] 0 convBiasDemo convDemo 4 3 rfl rfl).1.2.1

/-! ## C10: the registry is append-only and returned indices stay valid -/

/-- C10: every index-returning creation (`insert_primitive`, the
index-returning `build_memory_primitive`, `reserve_primitive_space`,
`convolution_forward_init`, and the index-returning constructs built on
them) only appends to the primitive registry and returns
`registry size - 1`, leaving the prior registry contents as an unchanged
prefix; the in-place rebuilds replace single slots and never change the
registry length, so no operation removes entries or shifts existing
indices. -/
theorem registry_append_only (V : Vendor) (st : Emitter) (p : Payload)
    (desc in_d w_d b_d r_d rd1 rd2 rd3 rd4 rd5 rd6 rd7 : MemDesc)
    (count : Nat) (nw with_bias : Bool) (hcount : 1 ≤ count)
    (s ds : List Nat) (pb pa : List Int) (pops : Nat) (scales : List Float)
    (dir alg qi mask ri fi bi : Nat)
    (stc stp str : Emitter) (cic cip cir : Nat) (str' : Emitter)
    (hconv : build_convolution_forward V st in_d w_d r_d s ds pb pa pops = .ok (stc, cic))
    (hpool : build_pooling_forward V st in_d r_d s s s s = .ok (stp, cip))
    (hrnn : build_rnn_forward V st rd1 rd2 rd3 rd4 rd5 rd6 rd7 dir alg = .ok (str, cir))
    (hrnn' : build_rnn_forward_inplace V st rd1 rd2 rd3 rd4 rd5 rd6 rd7 ri = .ok str') :
    ((insert_primitive st p).2 + 1 = (insert_primitive st p).1.primitives.length ∧
     (insert_primitive st p).1.primitives.take st.primitives.length = st.primitives) ∧
    ((build_memory_primitive st desc).2 + 1 =
       (build_memory_primitive st desc).1.primitives.length ∧
     (build_memory_primitive st desc).1.primitives.take st.primitives.length =
       st.primitives) ∧
    ((reserve_primitive_space st count nw).2 + 1 =
       (reserve_primitive_space st count nw).1.primitives.length ∧
     (reserve_primitive_space st count nw).1.primitives.take st.primitives.length =
       st.primitives) ∧
    ((convolution_forward_init st with_bias).2 + 1 =
       (convolution_forward_init st with_bias).1.primitives.length ∧
     (convolution_forward_init st with_bias).1.primitives.take st.primitives.length =
       st.primitives) ∧
    ((build_quantize_reorder st in_d r_d scales).2 + 1 =
       (build_quantize_reorder st in_d r_d scales).1.primitives.length ∧
     (build_quantize_reorder st in_d r_d scales).1.primitives.take st.primitives.length =
       st.primitives) ∧
    (cic + 1 = stc.primitives.length ∧ stc.primitives.take st.primitives.length =
       st.primitives) ∧
    (cip + 1 = stp.primitives.length ∧ stp.primitives.take st.primitives.length =
       st.primitives) ∧
    (cir + 1 = str.primitives.length ∧ str.primitives.take st.primitives.length =
       st.primitives) ∧
    ((build_max_pooling_backward V st in_d w_d r_d s s s s).2 + 1 =
       (build_max_pooling_backward V st in_d w_d r_d s s s s).1.primitives.length ∧
     (build_max_pooling_backward V st in_d w_d r_d s s s s).1.primitives.take
       st.primitives.length = st.primitives) ∧
    ((build_quantize_reorder_inplace st in_d r_d scales qi mask).primitives.length =
       st.primitives.length) ∧
    (str'.primitives.length = st.primitives.length) ∧
    ((build_max_pooling_backward_inplace V st in_d w_d r_d fi bi).primitives.length =
       st.primitives.length) := by
  refine ⟨?_, ?_, ?_, ?_, ?_, ?_, ?_, ?_, ?_, ?_, ?_, ?_⟩
  · exact ⟨by simp [insert_primitive], by simp [insert_primitive, List.take_left]⟩
  · exact ⟨by simp [build_memory_primitive, insert_primitive],
      by simp [build_memory_primitive, insert_primitive, List.take_left]⟩
  · refine ⟨?_, ?_⟩
    · simp [reserve_primitive_space]
      omega
    · simp [reserve_primitive_space, List.take_left]
  · rcases with_bias <;>
      exact ⟨by simp [convolution_forward_init],
        by simp [convolution_forward_init, List.take_left]⟩
  · constructor
    · simp [build_quantize_reorder, build_memory_primitive, insert_primitive]
    · simp only [build_quantize_reorder, build_memory_primitive, insert_primitive,
        List.append_assoc]
      exact List.take_left _ _
  · rcases hV : V.convOk with _ | _
    · rw [build_convolution_forward] at hconv
      simp [build_memory_primitive, insert_primitive, hV] at hconv
    · rw [build_convolution_forward] at hconv
      simp only [build_memory_primitive, insert_primitive, hV, if_true, Except.ok.injEq,
        Prod.mk.injEq] at hconv
      obtain ⟨hst, hci⟩ := hconv
      subst hst
      subst hci
      constructor
      · simp
      · simp only [List.append_assoc]
        exact List.take_left _ _
  · rcases hV : V.poolOk with _ | _
    · rw [build_pooling_forward] at hpool
      simp [build_memory_primitive, insert_primitive, hV] at hpool
    · rw [build_pooling_forward] at hpool
      simp only [build_memory_primitive, insert_primitive, hV, if_true, Except.ok.injEq,
        Prod.mk.injEq] at hpool
      obtain ⟨hst, hci⟩ := hpool
      subst hst
      subst hci
      constructor
      · simp
      · simp only [List.append_assoc]
        exact List.take_left _ _
  · rcases hV : V.rnnOk with _ | _
    · rw [build_rnn_forward] at hrnn
      simp [build_memory_primitive, insert_primitive, insert_workspace, hV] at hrnn
    · rw [build_rnn_forward] at hrnn
      simp only [build_memory_primitive, insert_primitive, insert_workspace, hV, if_true,
        Except.ok.injEq, Prod.mk.injEq] at hrnn
      obtain ⟨hst, hci⟩ := hrnn
      subst hst
      subst hci
      constructor
      · simp
      · simp only [List.append_assoc]
        exact List.take_left _ _
  · constructor
    · simp [build_max_pooling_backward, build_memory_primitive, insert_primitive,
        insert_workspace]
    · simp only [build_max_pooling_backward, build_memory_primitive, insert_primitive,
        insert_workspace, List.append_assoc]
      exact List.take_left _ _
  · simp [build_quantize_reorder_inplace, build_memory_primitive_inplace]
  · rcases hV : V.rnnOk with _ | _
    · rw [build_rnn_forward_inplace] at hrnn'
      simp [build_memory_primitive_inplace, insert_workspace, hV] at hrnn'
    · rw [build_rnn_forward_inplace] at hrnn'
      simp only [build_memory_primitive_inplace, insert_workspace, depsSetAt, hV, if_true,
        Except.ok.injEq] at hrnn'
      subst hrnn'
      simp
  · simp [build_max_pooling_backward_inplace, build_memory_primitive_inplace,
      insert_workspace]

/-- The emitter state after a pooling-forward construct on a fresh
emitter. -/
def poolDemo : Emitter :=
  { primitives :=
      [some ⟨0, .memory demoDesc⟩, some ⟨1, .memory demoDesc⟩, some ⟨2, .poolForward⟩],
    deps := [(2, [0, 1])], workspaces := 0, nextObj := 3 }

/-- The emitter state after an RNN-forward construct on a fresh emitter. -/
def rnnDemo : Emitter :=
  { primitives :=
      [some ⟨0, .memory demoDesc⟩, some ⟨1, .memory demoDesc⟩, some ⟨2, .memory demoDesc⟩,
       some ⟨3, .memory demoDesc⟩, some ⟨4, .memory demoDesc⟩, some ⟨5, .memory demoDesc⟩,
       some ⟨6, .memory demoDesc⟩, some ⟨7, .memory ⟨[], 0, .tag 0, []⟩⟩,
       some ⟨8, .rnnForward⟩],
    deps := [(8, [0, 1, 2, 3, 4, 5, 6, 7, 0])], workspaces := 1, nextObj := 9 }

/-- The emitter state after an RNN rebuild applied to a fresh emitter at
index 0 (all in-place writes fall outside the empty registry). -/
def rnnInplaceDemo : Emitter :=
  { primitives := [], deps := [(0, [])], workspaces := 1, nextObj := 9 }

/-- C10 witness: the `reserve_primitive_space` clause at a concrete state
and count. -/
theorem registry_append_only_witness :
    (reserve_primitive_space Emitter.empty 3 true).2 + 1 =
      (reserve_primitive_space Emitter.empty 3 true).1.primitives.length ∧
    (reserve_primitive_space Emitter.empty 3 true).1.primitives.take
      Emitter.empty.primitives.length = Emitter.empty.primitives :=
  (registry_append_only {} Emitter.empty .poolForward demoDesc demoDesc demoDesc demoDesc
    demoDesc demoDesc demoDesc demoDesc demoDesc demoDesc demoDesc demoDesc
    3 true true (by decide) [] [] [] [] 0 [] 0 0 0 0 0 0 0
    convDemo poolDemo rnnDemo 3 2 8 rnnInplaceDemo rfl rfl rfl rfl).2.2.1

/-! ## C6: how vendor rejections surface -/

/-- A vendor library that rejects every parameter combination. -/
def failingVendor : Vendor :=
  { convOk := false, convMsg := "bad format", poolOk := false, rnnOk := false }

/-- C6 counterexample: on a vendor rejection, `build_pooling_forward`
lets the vendor's own `mkldnn::error` escape (it has no try/catch), which
is not an `ngraph_error` — refuting the claim that every primitive kind
surfaces a structured construction error. -/
theorem pooling_forward_uncaught_vendor_error :
    build_pooling_forward failingVendor Emitter.empty demoDesc demoDesc [] [] [] [] =
      .error .mkldnnError ∧
    EmitterError.mkldnnError.isNgraphError = false :=
  ⟨rfl, rfl⟩

/-- C6 amended: only the builders that wrap construction in try/catch —
the two convolution-forward overloads (and `build_reorder`, not modelled
here) — convert a vendor rejection into a thrown `ngraph_error`; pooling
forward and RNN forward propagate the vendor's `mkldnn::error`
unwrapped. -/
theorem vendor_error_surfacing_amended (V : Vendor) (st : Emitter)
    (in_d w_d b_d r_d rd1 rd2 rd3 rd4 rd5 rd6 rd7 : MemDesc)
    (s ds : List Nat) (pb pa : List Int) (pops dir alg : Nat)
    (hc : V.convOk = false) (hp : V.poolOk = false) (hr : V.rnnOk = false) :
    build_convolution_forward V st in_d w_d r_d s ds pb pa pops =
      .error (.ngraphError ("Could not create mkldnn convolution " ++ V.convMsg)) ∧
    build_convolution_forward_bias V st in_d w_d b_d r_d s ds pb pa pops =
      .error (.ngraphError ("Could not create convolution " ++ V.convMsg)) ∧
    build_pooling_forward V st in_d r_d s s s s = .error .mkldnnError ∧
    build_rnn_forward V st rd1 rd2 rd3 rd4 rd5 rd6 rd7 dir alg = .error .mkldnnError := by
  simp [build_convolution_forward, build_convolution_forward_bias, build_pooling_forward,
    build_rnn_forward, build_memory_primitive, insert_primitive, hc, hp, hr]

/-- C6 witness: the amended statement at the concrete failing vendor. -/
theorem vendor_error_surfacing_amended_witness :
    build_convolution_forward failingVendor Emitter.empty demoDesc demoDesc demoDesc
      [] [] [] [] 0 =
      .error (.ngraphError ("Could not create mkldnn convolution " ++ "bad format")) ∧
    build_convolution_forward_bias failingVendor Emitter.empty demoDesc demoDesc demoDesc
      demoDesc [] [] [] [] 0 =
      .error (.ngraphError ("Could not create convolution " ++ "bad format")) ∧
    build_pooling_forward failingVendor Emitter.empty demoDesc demoDesc [] [] [] [] =
      .error .mkldnnError ∧
    build_rnn_forward failingVendor Emitter.empty demoDesc demoDesc demoDesc demoDesc
      demoDesc demoDesc demoDesc 0 0 = .error .mkldnnError :=
  vendor_error_surfacing_amended failingVendor Emitter.empty demoDesc demoDesc demoDesc
    demoDesc demoDesc demoDesc demoDesc demoDesc demoDesc demoDesc demoDesc
    [] [] [] [] 0 0 0 rfl rfl rfl

/-! ## C2: construct followed immediately by rebuild -/

/-- C2 counterexample: constructing an RNN forward on a fresh emitter and
immediately rebuilding the same index with identical parameters changes
the dependency list: entry 8 (the workspace-buffer index) moves from 0 to
1 because the rebuild inserts a fresh workspace. -/
theorem construct_rebuild_claim_false :
    build_rnn_forward {} Emitter.empty demoDesc demoDesc demoDesc demoDesc demoDesc
      demoDesc demoDesc 0 0 = .ok (rnnDemo, 8) ∧
    depsGetD rnnDemo.deps 8 = [0, 1, 2, 3, 4, 5, 6, 7, 0] ∧
    (build_rnn_forward_inplace {} rnnDemo demoDesc demoDesc demoDesc demoDesc demoDesc
        demoDesc demoDesc 8).toOption.map (fun st => depsGetD st.deps 8) =
      some [0, 1, 2, 3, 4, 5, 6, 7, 1] ∧
    ([0, 1, 2, 3, 4, 5, 6, 7, 1] : List Nat) ≠ [0, 1, 2, 3, 4, 5, 6, 7, 0] :=
  ⟨rfl, rfl, rfl, by decide⟩

/-- Effect of the RNN rebuild on the registry length, dependency map and
workspace count, for an arbitrary starting state.  (The seven in-place
memory writes touch only `primitives`; the dependency map changes only by
the final `m_primitive_deps[rnn_index][8] = workspace_buf_index`.) -/
theorem build_rnn_forward_inplace_fields (V : Vendor) (st : Emitter)
    (rd1 rd2 rd3 rd4 rd5 rd6 rd7 : MemDesc) (ri : Nat) (st' : Emitter)
    (h : build_rnn_forward_inplace V st rd1 rd2 rd3 rd4 rd5 rd6 rd7 ri = .ok st') :
    st'.primitives.length = st.primitives.length ∧
    st'.deps = depsSetAt st.deps ri 8 st.workspaces ∧
    st'.workspaces = st.workspaces + 1 := by
  rcases hV : V.rnnOk with _ | _
  · rw [build_rnn_forward_inplace] at h
    simp [hV] at h
  · rw [build_rnn_forward_inplace] at h
    simp only [build_memory_primitive_inplace, insert_workspace, hV, if_true,
      Except.ok.injEq] at h
    subst h
    simp

/-- Effect of the max-pooling backward rebuild on a state whose forward
and backward dependency entries are already recorded: the forward entry
keeps its slots but gets the fresh workspace-buffer index at position 3;
the backward entry gets the slot read from FORWARD position 1 written to
its positions 1 and 2, and the fresh workspace-buffer index at
position 3. -/
theorem build_max_pooling_backward_inplace_fields (V : Vendor) (st : Emitter)
    (dd ds fs : MemDesc) (fi bi : Nat) (a0 a1 a2 a3 b0 b1 b2 b3 : Nat)
    (hne : fi ≠ bi)
    (hf : depsGetD st.deps fi = [a0, a1, a2, a3])
    (hb : depsGetD st.deps bi = [b0, b1, b2, b3]) :
    (build_max_pooling_backward_inplace V st dd ds fs fi bi).primitives.length =
      st.primitives.length ∧
    depsGetD (build_max_pooling_backward_inplace V st dd ds fs fi bi).deps fi =
      [a0, a1, a2, st.workspaces] ∧
    depsGetD (build_max_pooling_backward_inplace V st dd ds fs fi bi).deps bi =
      [b0, a1, a1, st.workspaces] := by
  have hne' : bi ≠ fi := Ne.symm hne
  refine ⟨?_, ?_, ?_⟩
  · simp [build_max_pooling_backward_inplace, build_memory_primitive_inplace,
      insert_workspace]
  · simp [build_max_pooling_backward_inplace, build_memory_primitive_inplace,
      insert_workspace, depsSetAt, depsGetD_store_self, depsGetD_store_ne, hne, hne',
      hf, hb]
  · simp [build_max_pooling_backward_inplace, build_memory_primitive_inplace,
      insert_workspace, depsSetAt, depsGetD_store_self, depsGetD_store_ne, hne, hne',
      hf, hb]

/-- C2 amended: a construct followed immediately by an in-place rebuild
with identical resolved layout parameters never changes the number of
registry slots, and for the quantize reorder it leaves the dependency
list fully unchanged; but the rebuilds that allocate a workspace do
change the recorded dependencies: the RNN rebuild overwrites entry 8
with the freshly inserted workspace-buffer index, and the max-pooling
backward rebuild additionally overwrites entries 1 and 2 of the backward
list with the diff-src slot (reading the workspace slot from forward-deps
position 1) and entry 3 of both lists with the fresh workspace-buffer
index. -/
theorem construct_rebuild_amended (V : Vendor) (st : Emitter)
    (d1 d2 d3 rd1 rd2 rd3 rd4 rd5 rd6 rd7 : MemDesc) (scales : List Float) (mask : Nat)
    (wsp : List Nat) (dir alg : Nat) (st1 st2 : Emitter) (ri : Nat)
    (hc : build_rnn_forward V st rd1 rd2 rd3 rd4 rd5 rd6 rd7 dir alg = .ok (st1, ri))
    (hr : build_rnn_forward_inplace V st1 rd1 rd2 rd3 rd4 rd5 rd6 rd7 ri = .ok st2) :
    ((build_quantize_reorder_inplace (build_quantize_reorder st d1 d2 scales).1 d1 d2
        scales (build_quantize_reorder st d1 d2 scales).2 mask).deps =
      (build_quantize_reorder st d1 d2 scales).1.deps ∧
     (build_quantize_reorder_inplace (build_quantize_reorder st d1 d2 scales).1 d1 d2
        scales (build_quantize_reorder st d1 d2 scales).2 mask).primitives.length =
      (build_quantize_reorder st d1 d2 scales).1.primitives.length) ∧
    (st2.primitives.length = st1.primitives.length ∧
     depsGetD st2.deps ri = (depsGetD st1.deps ri).set 8 st1.workspaces ∧
     depsGetD st2.deps ri ≠ depsGetD st1.deps ri) ∧
    ((build_max_pooling_backward V st d1 d2 d3 wsp wsp wsp wsp).2 =
       st.primitives.length + 5 ∧
     (build_max_pooling_backward_inplace V
        (build_max_pooling_backward V st d1 d2 d3 wsp wsp wsp wsp).1 d2 d3 d1
        (st.primitives.length + 4) (st.primitives.length + 5)).primitives.length =
      (build_max_pooling_backward V st d1 d2 d3 wsp wsp wsp wsp).1.primitives.length ∧
     depsGetD (build_max_pooling_backward V st d1 d2 d3 wsp wsp wsp wsp).1.deps
         (st.primitives.length + 5) =
       [st.primitives.length + 1, st.primitives.length + 3, st.primitives.length + 2,
        st.workspaces] ∧
     depsGetD (build_max_pooling_backward_inplace V
          (build_max_pooling_backward V st d1 d2 d3 wsp wsp wsp wsp).1 d2 d3 d1
          (st.primitives.length + 4) (st.primitives.length + 5)).deps
         (st.primitives.length + 4) =
       [st.primitives.length, st.primitives.length + 2, st.primitives.length + 3,
        st.workspaces + 1] ∧
     depsGetD (build_max_pooling_backward_inplace V
          (build_max_pooling_backward V st d1 d2 d3 wsp wsp wsp wsp).1 d2 d3 d1
          (st.primitives.length + 4) (st.primitives.length + 5)).deps
         (st.primitives.length + 5) =
       [st.primitives.length + 1, st.primitives.length + 2, st.primitives.length + 2,
        st.workspaces + 1]) := by
  have h45 : st.primitives.length + 4 ≠ st.primitives.length + 5 := by omega
  refine ⟨⟨?_, ?_⟩, ?_, ?_⟩
  · simp [build_quantize_reorder, build_quantize_reorder_inplace,
      build_memory_primitive, build_memory_primitive_inplace, insert_primitive]
  · simp [build_quantize_reorder, build_quantize_reorder_inplace,
      build_memory_primitive, build_memory_primitive_inplace, insert_primitive]
  · obtain ⟨hlen, hdeps, hws⟩ := build_rnn_forward_inplace_fields V st1 rd1 rd2 rd3 rd4
      rd5 rd6 rd7 ri st2 hr
    refine ⟨hlen, ?_, ?_⟩
    · rw [hdeps, depsSetAt, depsGetD_store_self]
    · rw [hdeps, depsSetAt, depsGetD_store_self]
      rcases hV : V.rnnOk with _ | _
      · rw [build_rnn_forward] at hc
        simp [build_memory_primitive, insert_primitive, insert_workspace, hV] at hc
      · rw [build_rnn_forward] at hc
        simp only [build_memory_primitive, insert_primitive, insert_workspace, hV, if_true,
          Except.ok.injEq, Prod.mk.injEq] at hc
        obtain ⟨hst, hri⟩ := hc
        subst hst
        subst hri
        simp only [depsGetD_store_self, List.set_cons_zero, List.set_cons_succ, ne_eq,
          List.cons.injEq]
        omega
  · have hA : depsGetD (build_max_pooling_backward V st d1 d2 d3 wsp wsp wsp wsp).1.deps
        (st.primitives.length + 4) =
        [st.primitives.length, st.primitives.length + 2, st.primitives.length + 3,
         st.workspaces] := by
      simp [build_max_pooling_backward, build_memory_primitive, insert_primitive,
        insert_workspace, depsGetD_store_self, depsGetD_store_ne, h45]
    have hB : depsGetD (build_max_pooling_backward V st d1 d2 d3 wsp wsp wsp wsp).1.deps
        (st.primitives.length + 5) =
        [st.primitives.length + 1, st.primitives.length + 3, st.primitives.length + 2,
         st.workspaces] := by
      simp [build_max_pooling_backward, build_memory_primitive, insert_primitive,
        insert_workspace, depsGetD_store_self, depsGetD_store_ne, h45]
    have hW : (build_max_pooling_backward V st d1 d2 d3 wsp wsp wsp wsp).1.workspaces =
        st.workspaces + 1 := by
      simp [build_max_pooling_backward, build_memory_primitive, insert_primitive,
        insert_workspace]
    obtain ⟨hlen, hfwd, hbwd⟩ := build_max_pooling_backward_inplace_fields V
      (build_max_pooling_backward V st d1 d2 d3 wsp wsp wsp wsp).1 d2 d3 d1
      (st.primitives.length + 4) (st.primitives.length + 5)
      st.primitives.length (st.primitives.length + 2) (st.primitives.length + 3)
      st.workspaces (st.primitives.length + 1) (st.primitives.length + 3)
      (st.primitives.length + 2) st.workspaces h45 hA hB
    refine ⟨?_, hlen, hB, ?_, ?_⟩
    · simp [build_max_pooling_backward, build_memory_primitive, insert_primitive,
        insert_workspace]
    · rw [hfwd, hW]
    · rw [hbwd, hW]

/-- The emitter state after rebuilding the RNN of `rnnDemo` in place with
identical parameters: every slot is overwritten by a fresh object, a
second workspace is inserted, and deps entry 8 becomes 1. -/
def rnnRebuildDemo : Emitter :=
  { primitives :=
      [some ⟨9, .memory demoDesc⟩, some ⟨10, .memory demoDesc⟩, some ⟨11, .memory demoDesc⟩,
       some ⟨12, .memory demoDesc⟩, some ⟨13, .memory demoDesc⟩, some ⟨14, .memory demoDesc⟩,
       some ⟨15, .memory demoDesc⟩, some ⟨16, .memory ⟨[], 0, .tag 0, []⟩⟩,
       some ⟨17, .rnnForward⟩],
    deps := [(8, [0, 1, 2, 3, 4, 5, 6, 7, 1])], workspaces := 2, nextObj := 18 }

/-- C2 witness: the RNN clause of the amended statement at the concrete
construct-then-rebuild run on a fresh emitter. -/
theorem construct_rebuild_amended_witness :
    rnnRebuildDemo.primitives.length = rnnDemo.primitives.length ∧
    depsGetD rnnRebuildDemo.deps 8 = (depsGetD rnnDemo.deps 8).set 8 rnnDemo.workspaces ∧
    depsGetD rnnRebuildDemo.deps 8 ≠ depsGetD rnnDemo.deps 8 :=
  (construct_rebuild_amended {} Emitter.empty demoDesc demoDesc demoDesc demoDesc demoDesc
    demoDesc demoDesc demoDesc demoDesc demoDesc [] 0 [] 0 0 rnnDemo rnnRebuildDemo 8
    rfl rfl).2.1

/-! ## C5: what teardown releases -/

/-- The state after a quantize-reorder construct on a fresh emitter
(objects 0, 1, 2). -/
def quantizeDemo : Emitter :=
  (build_quantize_reorder Emitter.empty demoDesc demoDesc []).1

/-- `quantizeDemo` after an immediate in-place rebuild of index 2: the
three slots now hold the replacement objects 3, 4, 5, and objects 0, 1, 2
are no longer referenced anywhere. -/
def quantizeRebuildDemo : Emitter :=
  build_quantize_reorder_inplace quantizeDemo demoDesc demoDesc [] 2 0

/-- C5 counterexample: after a construct followed by an in-place rebuild,
six objects were constructed (`nextObj = 6`) but teardown deletes only the
three currently in the registry — the replaced objects 0, 1, 2 are never
released, so "every primitive object ever constructed is released exactly
once" fails. -/
theorem teardown_leaks_replaced_primitive :
    quantizeRebuildDemo.nextObj = 6 ∧
    teardown quantizeRebuildDemo =
      [TEvent.free 3, TEvent.free 4, TEvent.free 5, TEvent.flush] ∧
    TEvent.free 2 ∉ teardown quantizeRebuildDemo := by
  refine ⟨rfl, rfl, ?_⟩
  decide

/-- C5 amended: teardown deletes exactly the objects present in the
registry at destruction time, each exactly once (when the registry ids are
distinct, as produced by the emitter's fresh allocations), and flushes the
vendor buffer cache strictly after all deletions; an object id absent from
the registry — e.g. one replaced by an in-place rebuild — is never
released. -/
theorem teardown_amended (st : Emitter) (hnd : (registryIds st).Nodup) :
    teardown st = (registryIds st).map TEvent.free ++ [TEvent.flush] ∧
    (∀ i, (teardown st).count (TEvent.free i) =
      if i ∈ registryIds st then 1 else 0) ∧
    (∀ i, i ∉ registryIds st → TEvent.free i ∉ teardown st) := by
  have hmap : teardown st = (registryIds st).map TEvent.free ++ [TEvent.flush] := by
    simp only [teardown, registryIds, List.map_filterMap]
    congr 1
    apply List.filterMap_congr
    intro o _
    cases o <;> rfl
  refine ⟨hmap, fun i => ?_, fun i hi => ?_⟩
  · rw [hmap]
    have hinj : Function.Injective TEvent.free := fun a b h => by
      cases h
      rfl
    rw [List.count_append, List.count_map_of_injective _ _ hinj]
    by_cases hm : i ∈ registryIds st
    · simp [List.count_eq_one_of_mem hnd hm, hm]
    · simp [List.count_eq_zero_of_not_mem hm, hm]
  · rw [hmap]
    intro hmem
    rcases List.mem_append.1 hmem with hmem | hmem
    · rcases List.mem_map.1 hmem with ⟨j, hj, hje⟩
      cases hje
      exact hi hj
    · simp at hmem

/-- C5 witness: the amended statement at the rebuilt demo state. -/
theorem teardown_amended_witness :
    teardown quantizeRebuildDemo =
      (registryIds quantizeRebuildDemo).map TEvent.free ++ [TEvent.flush] :=
  (teardown_amended quantizeRebuildDemo (by decide)).1

/-! ## C1: correctness of the magic-number division pairs -/

theorem U64_pos : 0 < U64 := by norm_num [U64]

theorem powU64Aux_eq (fuel : Nat) : ∀ exp base acc, exp < 2 ^ fuel → acc < U64 →
    powU64Aux base exp acc fuel = acc * base ^ exp % U64 := by
  induction fuel with
  | zero =>
    intro exp base acc hexp hacc
    have : exp = 0 := by omega
    subst this
    simp [powU64Aux, Nat.mod_eq_of_lt hacc]
  | succ fuel ih =>
    intro exp base acc hexp hacc
    rw [powU64Aux]
    by_cases h2 : exp / 2 = 0
    · rw [if_pos h2]
      have he : exp = 0 ∨ exp = 1 := by omega
      rcases he with rfl | rfl
      · simp [Nat.mod_eq_of_lt hacc]
      · simp
    · rw [if_neg h2]
      have hlt : exp / 2 < 2 ^ fuel := by
        have h2f : 2 ^ (fuel + 1) = 2 ^ fuel * 2 := by ring
        omega
      have hacc' : (if exp % 2 = 1 then acc * base % U64 else acc) < U64 := by
        split
        · exact Nat.mod_lt _ U64_pos
        · exact hacc
      rw [ih (exp / 2) _ _ hlt hacc']
      have hmm : ∀ a x k : Nat, a * (x % U64) ^ k % U64 = a * x ^ k % U64 := by
        intro a x k
        conv_lhs => rw [Nat.mul_mod]
        rw [← Nat.pow_mod]
        conv_rhs => rw [Nat.mul_mod]
      have h1 : (if exp % 2 = 1 then acc * base % U64 else acc) *
          (base * base % U64) ^ (exp / 2) % U64 =
          acc * base ^ (exp % 2) * (base * base) ^ (exp / 2) % U64 := by
        rcases Nat.mod_two_eq_zero_or_one exp with hm | hm
        · rw [hm]
          simp only [pow_zero, mul_one, if_neg (by omega : ¬(0 : Nat) = 1), if_false]
          exact hmm acc (base * base) (exp / 2)
        · rw [hm]
          simp only [pow_one, if_pos rfl, if_true]
          rw [Nat.mod_mul_mod]
          exact hmm (acc * base) (base * base) (exp / 2)
      rw [h1]
      congr 1
      have hsplit : exp % 2 + 2 * (exp / 2) = exp := by omega
      calc acc * base ^ (exp % 2) * (base * base) ^ (exp / 2)
          = acc * base ^ (exp % 2) * (base ^ 2) ^ (exp / 2) := by rw [pow_two]
        _ = acc * base ^ (exp % 2) * base ^ (2 * (exp / 2)) := by rw [pow_mul]
        _ = acc * (base ^ (exp % 2) * base ^ (2 * (exp / 2))) := by rw [mul_assoc]
        _ = acc * base ^ (exp % 2 + 2 * (exp / 2)) := by rw [pow_add]
        _ = acc * base ^ exp := by rw [hsplit]

theorem powU64_eq (base exp : Nat) (hexp : exp < 2 ^ 64) :
    powU64 base exp = base ^ exp % U64 := by
  rw [powU64, powU64Aux_eq 64 exp base 1 hexp (by norm_num [U64]), one_mul]

theorem powU64_two (p : Nat) (hp : p ≤ 63) : powU64 2 p = 2 ^ p := by
  rw [powU64_eq 2 p (by calc p < 2 ^ 6 := by omega
        _ ≤ 2 ^ 64 := Nat.pow_le_pow_right (by norm_num) (by norm_num)),
    Nat.mod_eq_of_lt]
  calc (2 : Nat) ^ p ≤ 2 ^ 63 := Nat.pow_le_pow_right (by norm_num) hp
    _ < U64 := by norm_num [U64]

theorem usub_eq_sub {a b : Nat} (hb : b ≤ a) (ha : a < U64) : usub a b = a - b := by
  have h : a + U64 - b = (a - b) + U64 := by omega
  rw [usub, h, Nat.add_mod_right, Nat.mod_eq_of_lt (by omega)]

/-- The loop condition of `_magicU32` at exponent `p`, as computed by the
embedded wrapping arithmetic. -/
@[reducible] def magicCond (nc d p : Nat) : Prop :=
  nc * (usub (usub d 1) (usub (powU64 2 p) 1 % d)) % U64 < powU64 2 p

/-- The magic value the loop returns when it stops at exponent `p`. -/
@[reducible] def magicVal (d p : Nat) : Nat :=
  usub (usub ((powU64 2 p + d) % U64) 1) (usub (powU64 2 p) 1 % d) / d

theorem magicU32Loop_some (nc d : Nat) :
    ∀ fuel p0 m p, magicU32Loop nc d fuel p0 = some (m, p) →
      p0 ≤ p ∧ p < p0 + fuel ∧ magicCond nc d p ∧ m = magicVal d p := by
  intro fuel
  induction fuel with
  | zero =>
    intro p0 m p h
    cases h
  | succ fuel ih =>
    intro p0 m p h
    rw [magicU32Loop] at h
    by_cases hcond : magicCond nc d p0
    · rw [if_pos hcond] at h
      have h' := Option.some.inj h
      have hm : magicVal d p0 = m := congrArg Prod.fst h'
      have hp0 : p0 = p := congrArg Prod.snd h'
      subst hp0
      exact ⟨Nat.le_refl _, by omega, hcond, hm.symm⟩
    · rw [if_neg hcond] at h
      obtain ⟨h1, h2, h3, h4⟩ := ih (p0 + 1) m p h
      exact ⟨by omega, by omega, h3, h4⟩

theorem magicU32Loop_isSome (nc d j : Nat) (hcond : magicCond nc d j) :
    ∀ fuel p0, p0 ≤ j → j < p0 + fuel → (magicU32Loop nc d fuel p0).isSome := by
  intro fuel
  induction fuel with
  | zero =>
    intro p0 hpj hk
    omega
  | succ fuel ih =>
    intro p0 hpj hk
    rw [magicU32Loop]
    by_cases hc : magicCond nc d p0
    · rw [if_pos hc]
      rfl
    · rw [if_neg hc]
      have hne : p0 ≠ j := fun he => hc (he ▸ hcond)
      exact ih (p0 + 1) (by omega) (by omega)

theorem magicU32Loop_none (nc d : Nat) :
    ∀ fuel p0, (∀ j, p0 ≤ j → j < p0 + fuel → ¬magicCond nc d j) →
      magicU32Loop nc d fuel p0 = none := by
  intro fuel
  induction fuel with
  | zero =>
    intro p0 hall
    rfl
  | succ fuel ih =>
    intro p0 hall
    rw [magicU32Loop, if_neg (hall p0 (Nat.le_refl _) (by omega))]
    exact ih (p0 + 1) (fun j h1 h2 => hall j (by omega) (by omega))

/-- Core correctness of the `magicgu` search (Hacker's Delight): whenever
`m * d = 2 ^ p + e` with `e ≤ d - 1` and the loop condition
`nc * e < 2 ^ p` holds for `nc = ((nmax + 1) / d) * d - 1`, the
multiply-shift reproduces division by `d` on all of `0 .. nmax`. -/
theorem magic_div_correct (d p e m nmax : Nat) (hd : 1 ≤ d) (hdn : d ≤ nmax + 1)
    (hed : e ≤ d - 1) (hm : m * d = 2 ^ p + e)
    (hcond : ((nmax + 1) / d * d - 1) * e < 2 ^ p) :
    ∀ n, n ≤ nmax → n * m / 2 ^ p = n / d := by
  intro n hn
  have hp2 : 0 < 2 ^ p := Nat.pow_pos (by omega)
  have hq := Nat.div_add_mod n d
  set q := n / d with hqdef
  set r := n % d with hrdef
  have hr : r < d := Nat.mod_lt _ (by omega)
  have hnm : n * m = 2 ^ p * q + (q * e + r * m) := by
    calc n * m = (d * q + r) * m := by rw [hq]
      _ = q * (m * d) + r * m := by ring
      _ = q * (2 ^ p + e) + r * m := by rw [hm]
      _ = 2 ^ p * q + (q * e + r * m) := by ring
  have hdq : d * (q * e + r * m) = e * n + r * 2 ^ p := by
    calc d * (q * e + r * m) = d * q * e + r * (m * d) := by ring
      _ = d * q * e + r * (2 ^ p + e) := by rw [hm]
      _ = e * (d * q + r) + r * 2 ^ p := by ring
      _ = e * n + r * 2 ^ p := by rw [hq]
  have hKd := Nat.div_add_mod (nmax + 1) d
  have hKmod : (nmax + 1) % d < d := Nat.mod_lt _ (by omega)
  set Kq := (nmax + 1) / d with hKq
  have hKq1 : 1 ≤ Kq := (Nat.one_le_div_iff (by omega)).2 (by omega)
  have hcm : Kq * d = d * Kq := Nat.mul_comm _ _
  have hdK : d ≤ d * Kq := by
    calc d = d * 1 := by ring
      _ ≤ d * Kq := Nat.mul_le_mul_left _ hKq1
  have hbound : e * n + r * 2 ^ p < d * 2 ^ p := by
    by_cases hcase : n ≤ Kq * d - 1
    · have h1 : e * n ≤ e * (Kq * d - 1) := Nat.mul_le_mul_left _ hcase
      have h2 : e * (Kq * d - 1) < 2 ^ p := by
        rw [Nat.mul_comm]
        exact hcond
      have h3 : e * n < 2 ^ p := lt_of_le_of_lt h1 h2
      have h4 : r * 2 ^ p ≤ (d - 1) * 2 ^ p := Nat.mul_le_mul_right _ (by omega)
      have h5 : (d - 1) * 2 ^ p + 2 ^ p = d * 2 ^ p := by
        have hdd : d - 1 + 1 = d := by omega
        calc (d - 1) * 2 ^ p + 2 ^ p = (d - 1 + 1) * 2 ^ p := by ring
          _ = d * 2 ^ p := by rw [hdd]
      omega
    · have hKn : Kq * d ≤ n := by omega
      have h6 : n - Kq * d < d := by omega
      have hmod : n % d = n - Kq * d := by
        have h7 : n = d * Kq + (n - Kq * d) := by omega
        conv_lhs => rw [h7]
        rw [Nat.mul_add_mod]
        exact Nat.mod_eq_of_lt h6
      have hr2 : r + 2 ≤ d := by omega
      have h8 : n ≤ Kq * d - 1 + (d - 1) := by omega
      have h9 : e * n ≤ e * (Kq * d - 1) + e * (d - 1) := by
        calc e * n ≤ e * (Kq * d - 1 + (d - 1)) := Nat.mul_le_mul_left _ h8
          _ = e * (Kq * d - 1) + e * (d - 1) := by ring
      have h10 : e * (Kq * d - 1) < 2 ^ p := by
        rw [Nat.mul_comm]
        exact hcond
      have h11 : e * (d - 1) ≤ e * (Kq * d - 1) := Nat.mul_le_mul_left _ (by omega)
      have h12 : r * 2 ^ p ≤ (d - 2) * 2 ^ p := Nat.mul_le_mul_right _ (by omega)
      have h13 : (d - 2) * 2 ^ p + 2 ^ p + 2 ^ p = d * 2 ^ p := by
        have hdd : d - 2 + 1 + 1 = d := by omega
        calc (d - 2) * 2 ^ p + 2 ^ p + 2 ^ p = (d - 2 + 1 + 1) * 2 ^ p := by ring
          _ = d * 2 ^ p := by rw [hdd]
      omega
  have hkey : q * e + r * m < 2 ^ p := by
    have h7 : d * (q * e + r * m) < d * 2 ^ p := by
      rw [hdq]
      exact hbound
    exact Nat.lt_of_mul_lt_mul_left h7
  rw [hnm, Nat.mul_add_div hp2, Nat.div_eq_of_lt hkey, Nat.add_zero]

theorem U64_num : U64 = 18446744073709551616 := by norm_num [U64]

theorem two_pow_le_63 {p : Nat} (hp : p ≤ 63) : (2 : Nat) ^ p ≤ 2 ^ 63 :=
  Nat.pow_le_pow_right (by norm_num) hp

/-- For divisors below `2 ^ 32` and exponents up to 63, the wrapped loop
condition is `nc * (d - 1 - (2 ^ p - 1) % d) % U64 < 2 ^ p`. -/
theorem magicCond_raw (nc d p : Nat) (hd : 1 ≤ d) (hdlt : d < 2 ^ 32)
    (hp : p ≤ 63) :
    magicCond nc d p ↔ nc * (d - 1 - (2 ^ p - 1) % d) % U64 < 2 ^ p := by
  have hdU : d < U64 := by
    rw [U64_num]
    omega
  have hpow := powU64_two p hp
  have h2p1 : 1 ≤ 2 ^ p := Nat.one_le_two_pow
  have h2pU : 2 ^ p < U64 := by
    have := two_pow_le_63 hp
    rw [U64_num]
    omega
  have hs1 : usub (2 ^ p) 1 = 2 ^ p - 1 := usub_eq_sub h2p1 h2pU
  have hrr : (2 ^ p - 1) % d < d := Nat.mod_lt _ (by omega)
  have hd1 : usub d 1 = d - 1 := usub_eq_sub hd hdU
  have he : usub (usub d 1) ((2 ^ p - 1) % d) = d - 1 - (2 ^ p - 1) % d := by
    rw [hd1]
    exact usub_eq_sub (by omega) (by omega)
  unfold magicCond
  rw [hpow, hs1, he]

/-- With a non-underflowed `nc` below `2 ^ 32` the product does not wrap,
so the loop condition is the exact arithmetic condition. -/
theorem magicCond_clean (nc d p : Nat) (hd : 1 ≤ d) (hdlt : d < 2 ^ 32)
    (hnc : nc < 2 ^ 32) (hp : p ≤ 63) :
    magicCond nc d p ↔ nc * (d - 1 - (2 ^ p - 1) % d) < 2 ^ p := by
  have hrr : (2 ^ p - 1) % d < d := Nat.mod_lt _ (by omega)
  have hprod : nc * (d - 1 - (2 ^ p - 1) % d) < U64 := by
    have h1 : nc * (d - 1 - (2 ^ p - 1) % d) ≤ (2 ^ 32 - 1) * (2 ^ 32 - 1) :=
      Nat.mul_le_mul (by omega) (by omega)
    rw [U64_num]
    omega
  rw [magicCond_raw nc d p hd hdlt hp, Nat.mod_eq_of_lt hprod]

/-- Same-range clean form of the returned magic value. -/
theorem magicVal_clean (d p : Nat) (hd : 1 ≤ d) (hdlt : d < 2 ^ 32) (hp : p ≤ 63) :
    magicVal d p = (2 ^ p + d - 1 - (2 ^ p - 1) % d) / d := by
  have hdU : d < U64 := by
    rw [U64_num]
    omega
  have hpow := powU64_two p hp
  have h2p1 : 1 ≤ 2 ^ p := Nat.one_le_two_pow
  have h63 := two_pow_le_63 hp
  have hsum : 2 ^ p + d < U64 := by
    rw [U64_num]
    omega
  have hs1 : usub (2 ^ p) 1 = 2 ^ p - 1 := usub_eq_sub h2p1 (by omega)
  have hrr : (2 ^ p - 1) % d < d := Nat.mod_lt _ (by omega)
  unfold magicVal
  rw [hpow, hs1, Nat.mod_eq_of_lt hsum,
    usub_eq_sub (by omega) hsum,
    usub_eq_sub (by omega) (by omega)]

/-- The returned magic value is `(2 ^ p - 1) / d + 1`, and
`m * d = 2 ^ p + e` for the loop's `e = d - 1 - (2 ^ p - 1) % d`. -/
theorem magicVal_mul (d p : Nat) (hd : 1 ≤ d) (hdlt : d < 2 ^ 32) (hp : p ≤ 63) :
    magicVal d p = (2 ^ p - 1) / d + 1 ∧
    magicVal d p * d = 2 ^ p + (d - 1 - (2 ^ p - 1) % d) := by
  have hq' := Nat.div_add_mod (2 ^ p - 1) d
  have hrr : (2 ^ p - 1) % d < d := Nat.mod_lt _ (by omega)
  have h2p1 : 1 ≤ 2 ^ p := Nat.one_le_two_pow
  have hN : 2 ^ p + d - 1 - (2 ^ p - 1) % d = d * ((2 ^ p - 1) / d + 1) := by
    have hdist : d * ((2 ^ p - 1) / d + 1) = d * ((2 ^ p - 1) / d) + d := by ring
    omega
  have hm1 : magicVal d p = (2 ^ p - 1) / d + 1 := by
    rw [magicVal_clean d p hd hdlt hp, hN, Nat.mul_div_cancel_left _ (by omega)]
  refine ⟨hm1, ?_⟩
  rw [hm1]
  have hdist2 : ((2 ^ p - 1) / d + 1) * d = d * ((2 ^ p - 1) / d) + d := by ring
  omega

/-- C1 counterexample: for the power-of-two divisor 2 the function returns
magic 1 with shift 1, and the claimed identity
`n / d = (n * m) >> (32 + s)` fails already at `n = 2` (the code's
convention is that magic 1 means a plain shift by `s`). -/
theorem get_magic_u64_claim_false :
    get_magic_u64 2 = some (1, 1) ∧ ¬((2 : Nat) / 2 = (2 * 1) >>> (32 + 1)) := by
  constructor
  · decide
  · decide

/-- C1 amended: for divisors `d` with `1 ≤ d ≤ 2^31` the function returns
a pair `(m, s)`, and on the documented safe range
(`0..2^32-1` for `d = 3`, `0..2^31-1` otherwise) the shift identity
`n / d = (n * m) >> (32 + s)` holds whenever `m ≠ 1` and the returned
shift did not underflow (`s < 32`; the lone underflow case in range is
`d = 715827883`, which returns `s = 2^64 - 33 + 32`), while `m = 1`
(powers of two) satisfies the plain-shift identity `n / d = n >> s`;
for `2^31 < d < 2^32` the function throws instead of returning. -/
theorem get_magic_u64_amended (d : Nat) (hd1 : 1 ≤ d) (hd2 : d < 2 ^ 32) :
    (d ≤ 2 ^ 31 →
      ∃ m s, get_magic_u64 d = some (m, s) ∧
        ∀ n, n ≤ (if d = 3 then 4294967295 else 2147483647) →
          ((m ≠ 1 → s < 32 → n / d = (n * m) >>> (32 + s)) ∧
           (m = 1 → n / d = n >>> s))) ∧
    (2 ^ 31 < d → get_magic_u64 d = none) := by
  have h31 : (2 : Nat) ^ 31 = 2147483648 := by norm_num
  have h32 : (2 : Nat) ^ 32 = 4294967296 := by norm_num
  constructor
  · intro hd31
    by_cases h3 : d = 3
    · subst h3
      refine ⟨2863311531, 1, by decide, ?_⟩
      intro n hn
      rw [if_pos rfl] at hn
      constructor
      · intro _ _
        have hdiv := magic_div_correct 3 33 1 2863311531 4294967295 (by norm_num)
          (by norm_num) (by norm_num) (by norm_num) (by norm_num) n hn
        rw [Nat.shiftRight_eq_div_pow]
        exact hdiv.symm
      · intro h1
        exact absurd h1 (by norm_num)
    · have hd31' : d ≤ 2147483648 := by omega
      have hK1 : 1 ≤ 2147483648 / d := (Nat.one_le_div_iff (by omega)).2 hd31'
      have hKle : 2147483648 / d * d ≤ 2147483648 := Nat.div_mul_le_self _ _
      have hKd : d ≤ 2147483648 / d * d := by
        calc d = 1 * d := (one_mul d).symm
          _ ≤ 2147483648 / d * d := Nat.mul_le_mul_right _ hK1
      have hKU : 2147483648 / d * d < U64 := by
        rw [U64_num]
        omega
      have hnc_eq : usub ((2147483647 + 1) % U64 / d * d % U64) 1 =
          2147483648 / d * d - 1 := by
        have ha : (2147483647 + 1) % U64 = 2147483648 := by
          rw [U64_num]
        have hb : 2147483648 / d * d % U64 = 2147483648 / d * d :=
          Nat.mod_eq_of_lt hKU
        rw [ha, hb]
        exact usub_eq_sub (by omega) hKU
      have hncU : 2147483648 / d * d - 1 < 2 ^ 32 := by omega
      have hmsb : msbU64 2147483647 = 30 := by decide
      have hunfold : magicU32 2147483647 d =
          magicU32Loop (2147483648 / d * d - 1) d 63 0 := by
        simp only [magicU32, hmsb]
        rw [hnc_eq]
      have hcond62 : magicCond (2147483648 / d * d - 1) d 62 := by
        rw [magicCond_clean _ d 62 hd1 hd2 hncU (by norm_num)]
        have hrr : (2 ^ 62 - 1) % d < d := Nat.mod_lt _ (by omega)
        have h1 : (2147483648 / d * d - 1) * (d - 1 - (2 ^ 62 - 1) % d) ≤
            2147483647 * 2147483647 := Nat.mul_le_mul (by omega) (by omega)
        have h62 : (2 : Nat) ^ 62 = 4611686018427387904 := by norm_num
        omega
      have hsome : (magicU32Loop (2147483648 / d * d - 1) d 63 0).isSome :=
        magicU32Loop_isSome _ d 62 hcond62 63 0 (by omega) (by omega)
      obtain ⟨pr, hpr⟩ := Option.isSome_iff_exists.mp hsome
      obtain ⟨m0, p⟩ := pr
      obtain ⟨hp0, hplt, hcondp, hm0⟩ :=
        magicU32Loop_some _ d 63 0 m0 p hpr
      have hple : p ≤ 63 := by omega
      obtain ⟨hm0q, hm0d⟩ := magicVal_mul d p hd1 hd2 hple
      rw [← hm0] at hm0q hm0d
      have hcond_clean : (2147483648 / d * d - 1) * (d - 1 - (2 ^ p - 1) % d) < 2 ^ p :=
        (magicCond_clean _ d p hd1 hd2 hncU hple).mp hcondp
      have hres : get_magic_u64 d =
          some (m0, if m0 ≠ 1 then usub p 32 else p) := by
        rw [get_magic_u64, magicU64, if_neg h3, hunfold, hpr]
        rfl
      refine ⟨m0, _, hres, ?_⟩
      intro n hn
      rw [if_neg h3] at hn
      constructor
      · intro hm1 hs32
        rw [if_pos hm1] at hs32 ⊢
        have hpU : p < U64 := by
          rw [U64_num]
          omega
        have hp32 : 32 ≤ p := by
          by_contra hlt
          push_neg at hlt
          have hu : usub p 32 = p + U64 - 32 := by
            rw [usub]
            exact Nat.mod_eq_of_lt (by omega)
          rw [hu, U64_num] at hs32
          omega
        have hsub : usub p 32 = p - 32 := usub_eq_sub (by omega) hpU
        rw [hsub] at hs32 ⊢
        have hp_eq : 32 + (p - 32) = p := by omega
        rw [hp_eq, Nat.shiftRight_eq_div_pow]
        have hcond' : ((2147483647 + 1) / d * d - 1) * (d - 1 - (2 ^ p - 1) % d) <
            2 ^ p := by
          have : (2147483647 + 1 : Nat) = 2147483648 := by norm_num
          rw [this]
          exact hcond_clean
        exact (magic_div_correct d p (d - 1 - (2 ^ p - 1) % d) m0 2147483647 hd1
          (by omega) (by omega) hm0d hcond' n hn).symm
      · intro hm1
        rw [if_neg (fun h => h hm1)]
        have h2p1 : 1 ≤ 2 ^ p := Nat.one_le_two_pow
        have hq0 : (2 ^ p - 1) / d = 0 := by omega
        have hlt : 2 ^ p - 1 < d := (Nat.div_eq_zero_iff (by omega)).mp hq0
        have h2pd : 2 ^ p ≤ d := by omega
        have hdp : d = 2 ^ p := by
          by_contra hne
          have hlt2 : 2 ^ p < d := by omega
          have hrr : (2 ^ p - 1) % d = 2 ^ p - 1 := Nat.mod_eq_of_lt (by omega)
          have he1 : 1 ≤ d - 1 - (2 ^ p - 1) % d := by omega
          have hge : d - 1 ≤ (2147483648 / d * d - 1) * (d - 1 - (2 ^ p - 1) % d) := by
            calc d - 1 = (d - 1) * 1 := by ring
              _ ≤ (2147483648 / d * d - 1) * (d - 1 - (2 ^ p - 1) % d) :=
                Nat.mul_le_mul (by omega) he1
          omega
        rw [Nat.shiftRight_eq_div_pow, hdp]
  · intro hd31
    have h3 : d ≠ 3 := by omega
    have hK0 : 2147483648 / d = 0 := Nat.div_eq_of_lt (by omega)
    have hnc_eq : usub ((2147483647 + 1) % U64 / d * d % U64) 1 = U64 - 1 := by
      have ha : (2147483647 + 1) % U64 = 2147483648 := by
        rw [U64_num]
      rw [ha, hK0]
      rw [show (0 : Nat) * d % U64 = 0 by simp]
      rw [usub, Nat.zero_add, Nat.mod_eq_of_lt (by rw [U64_num]; omega)]
    have hmsb : msbU64 2147483647 = 30 := by decide
    have hunfold : magicU32 2147483647 d = magicU32Loop (U64 - 1) d 63 0 := by
      simp only [magicU32, hmsb]
      rw [hnc_eq]
    have hall : ∀ j, j < 63 → ¬magicCond (U64 - 1) d j := by
      intro j hj hcond
      have hple : j ≤ 63 := by omega
      have hcond' : (U64 - 1) * (d - 1 - (2 ^ j - 1) % d) % U64 < 2 ^ j :=
        (magicCond_raw _ d j hd1 hd2 hple).mp hcond
      have hrr : (2 ^ j - 1) % d < d := Nat.mod_lt _ (by omega)
      have h2j1 : 1 ≤ 2 ^ j := Nat.one_le_two_pow
      by_cases he0 : d - 1 - (2 ^ j - 1) % d = 0
      · have hq' := Nat.div_add_mod (2 ^ j - 1) d
        have hdvd : d ∣ 2 ^ j := by
          refine ⟨(2 ^ j - 1) / d + 1, ?_⟩
          have hdist : d * ((2 ^ j - 1) / d + 1) = d * ((2 ^ j - 1) / d) + d := by ring
          omega
        obtain ⟨i, hij, hdi⟩ := (Nat.dvd_prime_pow Nat.prime_two).mp hdvd
        subst hdi
        have hi1 : 31 < i := by
          by_contra hle
          push_neg at hle
          have hle2 := Nat.pow_le_pow_right (show 1 ≤ 2 by norm_num) hle
          omega
        have hi2 : i < 32 := by
          by_contra hle
          push_neg at hle
          have hle2 := Nat.pow_le_pow_right (show 1 ≤ 2 by norm_num) hle
          omega
        omega
      · have he1 : 1 ≤ d - 1 - (2 ^ j - 1) % d := by omega
        have hed : d - 1 - (2 ^ j - 1) % d ≤ d - 1 := by omega
        have heU : d - 1 - (2 ^ j - 1) % d < U64 := by
          rw [U64_num]
          omega
        have hmul : (U64 - 1) * (d - 1 - (2 ^ j - 1) % d) % U64 =
            U64 - (d - 1 - (2 ^ j - 1) % d) := by
          set e := d - 1 - (2 ^ j - 1) % d with hedef
          have ha : (U64 - 1) * e + e = U64 * e := by
            calc (U64 - 1) * e + e = (U64 - 1 + 1) * e := by ring
              _ = U64 * e := by rw [Nat.sub_add_cancel (by rw [U64_num]; omega)]
          have hb : U64 * e = U64 * (e - 1) + U64 := by
            calc U64 * e = U64 * (e - 1 + 1) := by rw [Nat.sub_add_cancel he1]
              _ = U64 * (e - 1) + U64 := by ring
          have hc : (U64 - 1) * e = U64 * (e - 1) + (U64 - e) := by omega
          rw [hc, Nat.mul_add_mod, Nat.mod_eq_of_lt (by omega)]
        rw [hmul] at hcond'
        have h62 : (2 : Nat) ^ j ≤ 2 ^ 62 := Nat.pow_le_pow_right (by norm_num) (by omega)
        have h62' : (2 : Nat) ^ 62 = 4611686018427387904 := by norm_num
        have hU := U64_num
        omega
    have hnone : magicU32Loop (U64 - 1) d 63 0 = none :=
      magicU32Loop_none (U64 - 1) d 63 0 (fun j h1 h2 => hall j (by omega))
    rw [get_magic_u64, magicU64, if_neg h3, hunfold, hnone]
    rfl

/-- C1 witness: the amended theorem instantiated at the divisor 7
(`1 ≤ 7` and `7 < 2 ^ 32` hold). -/
theorem get_magic_u64_amended_witness :
    1 ≤ 7 ∧ 7 < 2 ^ 32 ∧
    (((7 : Nat) ≤ 2 ^ 31 →
      ∃ m s, get_magic_u64 7 = some (m, s) ∧
        ∀ n, n ≤ (if (7 : Nat) = 3 then 4294967295 else 2147483647) →
          ((m ≠ 1 → s < 32 → n / 7 = (n * m) >>> (32 + s)) ∧
           (m = 1 → n / 7 = n >>> s))) ∧
    (2 ^ 31 < (7 : Nat) → get_magic_u64 7 = none)) :=
  ⟨by norm_num, by norm_num, get_magic_u64_amended 7 (by norm_num) (by norm_num)⟩
